import Mathlib

/-!
Shallow embedding of `src/gtmf.py` (Google Takeout Metadata Fixer).

Paths are modelled as lists of name components (`PyPath`), the filesystem as a
flat list of entries (path, kind, content, mtime).  Python exceptions are
modelled with `Except String`; a caught exception corresponds to matching on
the `.error` arm.  Python standard-library parsing functions (`json.loads`,
`datetime.strptime(..).timestamp()`, `float` on strings, and the
`HTMLParser`-based title extraction) are not part of the repository's code, so
they appear as parameters bundled in a `PyLib` structure; every theorem below
holds for an arbitrary such bundle, and concrete witnesses instantiate it with
a sample bundle.
-/

/-- A parsed JSON document, as produced by Python's `json.loads`. -/
inductive JsonVal where
  | null : JsonVal
  | bool : Bool → JsonVal
  | num : ℚ → JsonVal
  | str : String → JsonVal
  | arr : List JsonVal → JsonVal
  | obj : List (String × JsonVal) → JsonVal

/-- `True` exactly for `JsonVal.null`; models Python's `x is None` / `x == None`
for values coming out of `json.loads`. -/
def JsonVal.isNull : JsonVal → Bool
  | .null => true
  | _ => false

/-- Dictionary lookup (first binding wins), `none` for non-objects.  Used in
theorem statements to speak about field presence. -/
def jGet : JsonVal → String → Option JsonVal
  | .obj kvs, k => (kvs.find? (fun kv => kv.1 = k)).map (fun kv => kv.2)
  | _, _ => none

/-- Two-level dictionary lookup `v[k1][k2]` as an `Option`. -/
def jGet2 (v : JsonVal) (k1 k2 : String) : Option JsonVal :=
  match jGet v k1 with
  | some w => jGet w k2
  | none => none

/-- Three-level dictionary lookup `v[k1][k2][k3]` as an `Option`. -/
def jGet3 (v : JsonVal) (k1 k2 k3 : String) : Option JsonVal :=
  match jGet2 v k1 k2 with
  | some w => jGet w k3
  | none => none

/-- Python truthiness of a JSON value (`bool(x)`). -/
def pyTruthy : JsonVal → Bool
  | .null => false
  | .bool b => b
  | .num q => !(q = 0 : Bool)
  | .str s => !(s = "" : Bool)
  | .arr xs => !xs.isEmpty
  | .obj kvs => !kvs.isEmpty

/-- Python's `x.get(k, d)`: defined on dictionaries, raises `AttributeError`
on every other value (including lists and `None`). -/
def pyGet (v : JsonVal) (k : String) (d : JsonVal) : Except String JsonVal :=
  match v with
  | .obj kvs =>
    match kvs.find? (fun kv => kv.1 = k) with
    | some kv => .ok kv.2
    | none => .ok d
  | _ => .error "AttributeError"

/-- `pre` is a prefix of `l`, by character comparison. -/
def listStartsWith : List Char → List Char → Bool
  | [], _ => true
  | _ :: _, [] => false
  | p :: ps, c :: cs => if p == c then listStartsWith ps cs else false

/-- `k` occurs as a contiguous substring of `s` — Python's `k in s` for a
nonempty string `k`. -/
def containsSub (k : List Char) : List Char → Bool
  | [] => listStartsWith k []
  | c :: cs => listStartsWith k (c :: cs) || containsSub k cs

/-- `s.startswith(pre)` / Lean's `String.startsWith`, on character lists. -/
def strStartsWith (s pre : String) : Bool := listStartsWith pre.data s.data

/-- `s.endswith(suffix)` (`String.endsWith`), on character lists. -/
def strEndsWith (s suffix : String) : Bool := suffix.data.isSuffixOf s.data

/-- Splitting a character list on `/` (exact `str.split('/')` behaviour:
empty pieces are kept). -/
def splitOnSlash : List Char → List (List Char)
  | [] => [[]]
  | c :: cs =>
    if c == '/' then [] :: splitOnSlash cs
    else
      match splitOnSlash cs with
      | [] => [[c]]
      | g :: gs => (c :: g) :: gs

/-- `s.replace(a, b)` for single-character `a` and `b` — a per-character map,
which is exactly what Python computes for one-character patterns. -/
def replaceChar (a b : Char) (s : String) : String :=
  ⟨s.data.map (fun c => if c == a then b else c)⟩

/-- Python's `k in v` for a string key `k`: key membership on dicts, substring
test on strings, element equality on lists (only string elements can equal a
string key), `TypeError` on numbers, booleans and `None`. -/
def pyIn (k : String) (v : JsonVal) : Except String Bool :=
  match v with
  | .obj kvs => .ok (kvs.any (fun kv => kv.1 = k))
  | .str s => .ok (if k = "" then true else containsSub k.data s.data)
  | .arr xs =>
    .ok (xs.any (fun x =>
      match x with
      | .str s => s = k
      | _ => false))
  | _ => .error "TypeError"

/-- Python's `v[k]` for a string key: dictionary indexing with `KeyError` when
absent, `TypeError` on every non-dictionary value. -/
def pyGetItem (v : JsonVal) (k : String) : Except String JsonVal :=
  match v with
  | .obj kvs =>
    match kvs.find? (fun kv => kv.1 = k) with
    | some kv => .ok kv.2
    | none => .error "KeyError"
  | _ => .error "TypeError"

/-- A path, as a list of name components relative to the filesystem root. -/
abbrev PyPath := List String

/-- The name components contributed by one string argument of
`pathlib.PurePath.joinpath`: split on `/`, dropping empty and `.` segments
(pathlib keeps `..` literally). -/
def pySegs (s : String) : List String :=
  ((splitOnSlash s.data).map (fun g => String.mk g)).filter
    (fun c => !(c = "" : Bool) && !(c = "." : Bool))

/-- `pathlib`'s `p.joinpath(s)`: an argument starting with `/` resets to the
root, otherwise its segments are appended; `p.joinpath("")` is `p` itself. -/
def pyJoin (p : PyPath) (s : String) : PyPath :=
  if strStartsWith s "/" then pySegs s else p ++ pySegs s

/-- `pathlib`'s `p.name` (`""` for the root). -/
def pathName (p : PyPath) : String := (p.getLast?).getD ""

/-- `pathlib`'s `p.parent`. -/
def pathParent (p : PyPath) : PyPath := p.dropLast

/-- One filesystem entry: its absolute path, whether it is a directory, its
text content (meaningful for regular files only) and its modification time in
epoch seconds. -/
structure Entry where
  path : PyPath
  isDir : Bool
  content : String
  mtime : ℚ
deriving DecidableEq

/-- The mtime-erased view of an entry: everything the matching logic can read. -/
structure SEntry where
  path : PyPath
  isDir : Bool
  content : String
deriving DecidableEq

/-- A filesystem: a finite list of entries.  Entry order models directory
iteration (`iterdir`) order. -/
structure FS where
  entries : List Entry
deriving DecidableEq

/-- The read-only (mtime-erased) view of a filesystem. -/
abbrev Shape := List SEntry

def Entry.toS (e : Entry) : SEntry := ⟨e.path, e.isDir, e.content⟩

def FS.shape (fs : FS) : Shape := fs.entries.map Entry.toS

/-- First entry at a path in the read-only view. -/
def sfind (sh : Shape) (p : PyPath) : Option SEntry :=
  sh.find? (fun e => e.path = p)

/-- `Path.exists()` against the read-only view. -/
def existsP (sh : Shape) (p : PyPath) : Bool := (sfind sh p).isSome

/-- `Path.is_dir()` against the read-only view. -/
def isDirP (sh : Shape) (p : PyPath) : Bool :=
  match sfind sh p with
  | some e => e.isDir
  | none => false

/-- `Path.read_text()`: `FileNotFoundError` when absent, `IsADirectoryError`
on directories. -/
def readText (sh : Shape) (p : PyPath) : Except String String :=
  match sfind sh p with
  | none => .error "FileNotFoundError"
  | some e => if e.isDir then .error "IsADirectoryError" else .ok e.content

/-- First entry at a path in the full filesystem. -/
def FS.lookup (fs : FS) (p : PyPath) : Option Entry :=
  fs.entries.find? (fun e => e.path = p)

/-- The content and mtime of the regular file at `p`, if any. -/
def fileAt (fs : FS) (p : PyPath) : Option (String × ℚ) :=
  match fs.lookup p with
  | some e => if e.isDir then none else some (e.content, e.mtime)
  | none => none

/-- `os.utime(p, (t, t))` restricted to the mtime (the model keeps a single
time per entry); it touches every entry at path `p` and nothing else. -/
def FS.utime (fs : FS) (p : PyPath) (t : ℚ) : FS :=
  ⟨fs.entries.map (fun e => if e.path = p then { e with mtime := t } else e)⟩

/-- The names of the children of `dir`, in entry (iterdir) order, first
occurrence kept — this is the key set of the Python dict comprehension
`{item.name: item for item in directory.iterdir()}`. -/
def childNames (sh : Shape) (dir : PyPath) : List String :=
  (((sh.filter (fun e => e.path.length = dir.length + 1 && dir.isPrefixOf e.path)).map
    (fun e => (e.path.getLast?).getD "")).eraseDups)

/-- The Python standard-library functions the script calls; they are external
to the repository, so the embedding abstracts over them.  `loads` models
`json.loads`, `strptimeTs` models
`datetime.strptime(s, "%Y-%m-%dT%H:%M:%S.%fZ").timestamp()`, `floatStr`
models `float` applied to a string, and `htmlTitle` models the
`CommentsHtmlParser.TitleParser` run of `html.parser.HTMLParser` returning the
text found at the exact open-tag path `html > title`, if any. -/
structure PyLib where
  loads : String → Except String JsonVal
  strptimeTs : String → Except String ℚ
  floatStr : String → Except String ℚ
  htmlTitle : String → Except String (Option String)

/-- A matched JSON record (`JsonParser` instance fields). -/
structure JsonRec where
  metadata_path : PyPath
  primary_path : PyPath
  data : JsonVal

/-- A matched HTML record (`CommentsHtmlParser` instance fields). -/
structure HtmlRec where
  metadata_path : PyPath
  primary_path : PyPath

/-- `gtmf.py` lines 61-62: replace `'` by `_`, then `/` by `-`. -/
def sanitizeTitle (s : String) : String :=
  replaceChar '/' '-' (replaceChar '\u0027' '_' s)

/-- `gtmf.py` line 56:
`data.get('title', None) or data.get('albumData', []).get('title', None)`.
The `or` returns the first operand when it is truthy; the fallback calls
`.get` on the value of `albumData` (default: the empty list), which raises
`AttributeError` unless that value is a dictionary. -/
def getTitleVal (data : JsonVal) : Except String JsonVal :=
  match pyGet data "title" .null with
  | .error m => .error m
  | .ok a =>
    if pyTruthy a then .ok a
    else
      match pyGet data "albumData" (.arr []) with
      | .error m => .error m
      | .ok ad => pyGet ad "title" .null

/-- `gtmf.py` lines 56-62: the `is None` check followed by the two character
replacements; `.replace` on a non-string raises `AttributeError`. -/
def getSanitizedTitle (data : JsonVal) : Except String (Option String) :=
  match getTitleVal data with
  | .error m => .error m
  | .ok .null => .ok none
  | .ok (.str s) => .ok (some (sanitizeTitle s))
  | .ok _ => .error "AttributeError"

namespace JsonParser

/-- `JsonParser.create` body (`gtmf.py` lines 49-80), before the enclosing
`try`/`except`: read the file, parse it, extract and sanitize the title, then
resolve the primary path (sibling, containing directory, unmatched-allowed,
or no match). -/
def create_body (lib : PyLib) (sh : Shape) (metadata_path : PyPath)
    (allow_unmatched_primary_path : Bool) : Except String (Option JsonRec) :=
  match readText sh metadata_path with
  | .error m => .error m
  | .ok txt =>
    match lib.loads txt with
    | .error m => .error m
    | .ok data =>
      if data.isNull then .ok none
      else
        match getSanitizedTitle data with
        | .error m => .error m
        | .ok none => .ok none
        | .ok (some title) =>
          let sib := pyJoin (pathParent metadata_path) title
          if existsP sh sib then
            .ok (some ⟨metadata_path, sib, data⟩)
          else if pathName (pathParent metadata_path) = title then
            .ok (some ⟨metadata_path, pathParent metadata_path, data⟩)
          else if allow_unmatched_primary_path then
            .ok (some ⟨metadata_path, sib, data⟩)
          else .ok none

/-- `JsonParser.create` (`gtmf.py` lines 48-83): the whole body runs inside
`try`/`except Exception: return None`, so every raised error becomes `none`. -/
def create (lib : PyLib) (sh : Shape) (metadata_path : PyPath)
    (allow_unmatched_primary_path : Bool) : Option JsonRec :=
  match create_body lib sh metadata_path allow_unmatched_primary_path with
  | .ok r => r
  | .error _ => none

/-- `float(x)` as used on the payload's timestamp values: numbers pass
through, booleans coerce to `0`/`1`, strings go through the string parser,
everything else raises `TypeError`. -/
def pyFloat (lib : PyLib) : JsonVal → Except String ℚ
  | .num q => .ok q
  | .bool b => .ok (if b then 1 else 0)
  | .str s => lib.floatStr s
  | _ => .error "TypeError"

/-- The guard `k1 in data and k2 in data[k1]` (short-circuiting `and`). -/
def pyInChain2 (data : JsonVal) (k1 k2 : String) : Except String Bool :=
  match pyIn k1 data with
  | .error m => .error m
  | .ok false => .ok false
  | .ok true =>
    match pyGetItem data k1 with
    | .error m => .error m
    | .ok v => pyIn k2 v

/-- The guard `k1 in data and k2 in data[k1] and k3 in data[k1][k2]`. -/
def pyInChain3 (data : JsonVal) (k1 k2 k3 : String) : Except String Bool :=
  match pyInChain2 data k1 k2 with
  | .error m => .error m
  | .ok false => .ok false
  | .ok true =>
    match pyGetItem data k1 with
    | .error m => .error m
    | .ok v =>
      match pyGetItem v k2 with
      | .error m => .error m
      | .ok w => pyIn k3 w

/-- `gtmf.py` lines 87-107 condition chain, pulled out of the branches that
call `apply_modify_timestamp`: each of the four payload fields is tried in
order behind its own membership guard, the first present field is decoded and
wins (`.ok (some t)`), a decoding or type failure raises (`.error`), and when
no field is present the chain falls through (`.ok none`, line 111's
`return False`).  The calls to `apply_modify_timestamp` are terminal in every
branch of the source, so the extraction is stateless and can be factored out
of the state-passing wrapper `apply_body` below without changing behaviour. -/
def extract_timestamp (lib : PyLib) (data : JsonVal) : Except String (Option ℚ) :=
  match pyIn "last_modified_by_any_user" data with
  | .error m => .error m
  | .ok true =>
    match pyGetItem data "last_modified_by_any_user" with
    | .error m => .error m
    | .ok (.str s) =>
      (match lib.strptimeTs s with
       | .error m => .error m
       | .ok t => .ok (some t))
    | .ok _ => .error "TypeError"
  | .ok false =>
    match pyInChain2 data "photoTakenTime" "timestamp" with
    | .error m => .error m
    | .ok true =>
      match pyGetItem data "photoTakenTime" with
      | .error m => .error m
      | .ok v =>
        match pyGetItem v "timestamp" with
        | .error m => .error m
        | .ok tv =>
          match pyFloat lib tv with
          | .error m => .error m
          | .ok q => .ok (some q)
    | .ok false =>
      match pyInChain2 data "date" "timestamp" with
      | .error m => .error m
      | .ok true =>
        match pyGetItem data "date" with
        | .error m => .error m
        | .ok v =>
          match pyGetItem v "timestamp" with
          | .error m => .error m
          | .ok tv =>
            match pyFloat lib tv with
            | .error m => .error m
            | .ok q => .ok (some q)
      | .ok false =>
        match pyInChain3 data "albumData" "date" "timestamp" with
        | .error m => .error m
        | .ok true =>
          match pyGetItem data "albumData" with
          | .error m => .error m
          | .ok ad =>
            match pyGetItem ad "date" with
            | .error m => .error m
            | .ok d =>
              match pyGetItem d "timestamp" with
              | .error m => .error m
              | .ok tv =>
                match pyFloat lib tv with
                | .error m => .error m
                | .ok q => .ok (some q)
        | .ok false => .ok none

/-- `JsonParser.apply_modify_timestamp` (`gtmf.py` lines 113-118): set both
times of the primary iff it exists, report success accordingly. -/
def apply_modify_timestamp (fs : FS) (primary_path : PyPath) (t : ℚ) : FS × Bool :=
  if existsP fs.shape primary_path then (fs.utime primary_path t, true)
  else (fs, false)

/-- `JsonParser.apply_metadata_to_primary` body (`gtmf.py` lines 86-111)
before the enclosing `try`/`except`: decode a timestamp from the payload and
apply it, `false` when no field is present. -/
def apply_body (lib : PyLib) (fs : FS) (r : JsonRec) : Except String (FS × Bool) :=
  match extract_timestamp lib r.data with
  | .error m => .error m
  | .ok (some t) => .ok (apply_modify_timestamp fs r.primary_path t)
  | .ok none => .ok (fs, false)

/-- `JsonParser.apply_metadata_to_primary` (`gtmf.py` lines 85-111): the body
runs inside `try`/`except Exception: return False`; every exception arises
before any mutation, so the caught state is the incoming one. -/
def apply_metadata_to_primary (lib : PyLib) (fs : FS) (r : JsonRec) : FS × Bool :=
  match apply_body lib fs r with
  | .ok res => res
  | .error _ => (fs, false)

end JsonParser

namespace CommentsHtmlParser

/-- `CommentsHtmlParser.create` body (`gtmf.py` lines 145-160): read the file,
extract the `html > title` text, resolve a sibling of that name (or accept it
unmatched when allowed). -/
def create_body (lib : PyLib) (sh : Shape) (metadata_path : PyPath)
    (allow_unmatched_primary_path : Bool) : Except String (Option HtmlRec) :=
  match readText sh metadata_path with
  | .error m => .error m
  | .ok txt =>
    match lib.htmlTitle txt with
    | .error m => .error m
    | .ok none => .ok none
    | .ok (some title) =>
      let sib := pyJoin (pathParent metadata_path) title
      if existsP sh sib then .ok (some ⟨metadata_path, sib⟩)
      else if allow_unmatched_primary_path then .ok (some ⟨metadata_path, sib⟩)
      else .ok none

/-- `CommentsHtmlParser.create` (`gtmf.py` lines 144-163): body wrapped in
`try`/`except Exception: return None`. -/
def create (lib : PyLib) (sh : Shape) (metadata_path : PyPath)
    (allow_unmatched_primary_path : Bool) : Option HtmlRec :=
  match create_body lib sh metadata_path allow_unmatched_primary_path with
  | .ok r => r
  | .error _ => none

/-- `CommentsHtmlParser.apply_metadata_to_primary` (`gtmf.py` lines 165-166):
`return self.primary_path.exists()` — a pure existence check, no mutation. -/
def apply_metadata_to_primary (fs : FS) (r : HtmlRec) : FS × Bool :=
  (fs, existsP fs.shape r.primary_path)

end CommentsHtmlParser

/-- Code-point lexicographic comparison of character lists. -/
def charListLt : List Char → List Char → Bool
  | _, [] => false
  | [], _ :: _ => true
  | c :: cs, d :: ds =>
    if c.toNat < d.toNat then true
    else if d.toNat < c.toNat then false
    else charListLt cs ds

/-- Code-point lexicographic comparison of strings — how Python compares the
sibling `Path` objects inside `sorted(path.iterdir())` (siblings share their
parent prefix, so the comparison reduces to their names). -/
def strLtB (a b : String) : Bool := charListLt a.data b.data

/-- Insert into a sorted list, keeping earlier elements first on ties. -/
def insertSorted (x : String) : List String → List String
  | [] => [x]
  | y :: ys => if strLtB y x then y :: insertSorted x ys else x :: y :: ys

/-- Sorting child names as Python's `sorted` does (the child-name lists fed to
it are duplicate-free, so any sorting algorithm yields the same list). -/
def sortNames (xs : List String) : List String :=
  xs.foldl (fun acc x => insertSorted x acc) []

/-- The sorted child names of a directory: `sorted(path.iterdir())` in
`get_depth_first_directories` (`gtmf.py` line 219). -/
def sortedChildren (sh : Shape) (dir : PyPath) : List String :=
  sortNames (childNames sh dir)

/-- A matched record of either variant, as held in the `parsers` list of
`fix_metadata` (`gtmf.py` lines 185-192). -/
inductive PRec where
  | json : JsonRec → PRec
  | html : HtmlRec → PRec

def PRec.metadata_path : PRec → PyPath
  | .json r => r.metadata_path
  | .html r => r.metadata_path

def PRec.primary_path : PRec → PyPath
  | .json r => r.primary_path
  | .html r => r.primary_path

/-- Polymorphic dispatch of `apply_metadata_to_primary` over the two record
variants (`gtmf.py` line 196). -/
def applyRec (lib : PyLib) (fs : FS) : PRec → FS × Bool
  | .json r => JsonParser.apply_metadata_to_primary lib fs r
  | .html r => CommentsHtmlParser.apply_metadata_to_primary fs r

/-- The `parsers` list comprehension (`gtmf.py` lines 185-192): for each child
name in dict order, try each parser class whose suffix matches
(`metadata_parsers = [JsonParser, CommentsHtmlParser]`), keeping the records
whose `create` succeeded. -/
def collectParsers (lib : PyLib) (sh : Shape) (dir : PyPath) (move : Bool) :
    List PRec :=
  ((childNames sh dir).map (fun n =>
    (if strEndsWith n ".json" then
      match JsonParser.create lib sh (dir ++ [n]) move with
      | some r => [PRec.json r]
      | none => []
     else []) ++
    (if strEndsWith n ".html" then
      match CommentsHtmlParser.create lib sh (dir ++ [n]) move with
      | some r => [PRec.html r]
      | none => []
     else []))).flatten

/-- `os.makedirs(target, exist_ok=True)` over the list of successive prefixes
of the target: each missing prefix is created as a directory; an existing
regular file at a prefix aborts with `FileExistsError` (`false`), leaving the
directories created so far in place. -/
def mkdirList (fs : FS) : List PyPath → FS × Bool
  | [] => (fs, true)
  | q :: rest =>
    match fs.lookup q with
    | some e => if e.isDir then mkdirList fs rest else (fs, false)
    | none => mkdirList ⟨fs.entries ++ [⟨q, true, "", 0⟩]⟩ rest

/-- The successive nonempty prefixes of a path, shortest first. -/
def pathPrefixes (p : PyPath) : List PyPath :=
  (List.range p.length).map (fun k => p.take (k + 1))

/-- `os.makedirs(p, exist_ok=True)`. -/
def pyMakedirs (fs : FS) (p : PyPath) : FS × Bool :=
  mkdirList fs (pathPrefixes p)

/-- `os.rename` / `Path.rename(q)`: fails when the source is missing or a
directory already sits at the target; otherwise every entry in the subtree of
`p` is re-rooted at `q`, and a regular file previously at `q` is replaced. -/
def FS.rename (fs : FS) (p q : PyPath) : Except String FS :=
  if !(existsP fs.shape p) then .error "FileNotFoundError"
  else if isDirP fs.shape q then .error "IsADirectoryError"
  else
    .ok ⟨(fs.entries.filter (fun e => !(e.path = q : Bool))).map
      (fun e => if p.isPrefixOf e.path then { e with path := q ++ e.path.drop p.length } else e)⟩

/-- `move_metadata_file` (`gtmf.py` lines 224-235): compute the path of the
metadata file relative to the source root (`ValueError` when it is not below
it), recreate that relative path under the destination root with
`os.makedirs(..., exist_ok=True)`, and rename the file there.  The state is
returned even on failure, since `makedirs` may already have created
directories when a later step fails. -/
def move_metadata_file (fs : FS) (metadata_path source_directory
    metadata_destination_directory : PyPath) : FS × Except String PyPath :=
  if !(source_directory.isPrefixOf metadata_path) then (fs, .error "ValueError")
  else
    let new_metadata_path :=
      metadata_destination_directory ++ metadata_path.drop source_directory.length
    let mk := pyMakedirs fs (pathParent new_metadata_path)
    if !mk.2 then (mk.1, .error "FileExistsError")
    else
      match mk.1.rename metadata_path new_metadata_path with
      | .ok fs2 => (fs2, .ok new_metadata_path)
      | .error m => (mk.1, .error m)

/-- The body of the `for metadata_parser in parsers` loop (`gtmf.py` lines
194-214) for one record: apply the metadata, then relocate the metadata file
when `is_applied and metadata_destination_directory or move_for_missing_primary`
holds (Python precedence: `(is_applied and dest) or move`); the surrounding
`try`/`except` turns any failure (the `assert` with no destination, or a
relocation error) into a line on the error channel, and processing
continues. -/
def processRecord (lib : PyLib) (source_directory : PyPath)
    (dest : Option PyPath) (move : Bool) (fs : FS) (r : PRec) :
    FS × List String :=
  let ap := applyRec lib fs r
  if (ap.2 && dest.isSome) || move then
    match dest with
    | none => (ap.1, ["AssertionError"])
    | some d =>
      match move_metadata_file ap.1 r.metadata_path source_directory d with
      | (fs2, .ok _) => (fs2, [])
      | (fs2, .error m) => (fs2, [m])
  else (ap.1, [])

/-- Processing of one directory (`gtmf.py` lines 179-214): build the records
from the directory's children, then run the per-record loop, accumulating
error-channel lines. -/
def processDirectory (lib : PyLib) (source_directory : PyPath)
    (dest : Option PyPath) (move : Bool) (fs : FS) (dir : PyPath) :
    FS × List String :=
  (collectParsers lib fs.shape dir move).foldl
    (fun acc r =>
      let st := processRecord lib source_directory dest move acc.1 r
      (st.1, acc.2 ++ st.2))
    (fs, [])

/-- The `get_depth_first_directories` generator (`gtmf.py` lines 217-221)
fused with its consuming loop in `fix_metadata` (line 177): on entering a
directory the generator materialises `sorted(path.iterdir())`, then fully
yields each child's subtree, and yields the directory itself last, at which
point `fix_metadata` processes it against the then-current filesystem.
Non-directories yield nothing.  The fuel bounds the recursion depth; callers
pass one more than the longest path in the filesystem, which covers every
directory the walk can reach. -/
def fix_metadata_walk (lib : PyLib) (source_directory : PyPath)
    (dest : Option PyPath) (move : Bool) :
    Nat → FS → PyPath → FS × List String
  | 0, fs, _ => (fs, [])
  | fuel + 1, fs, p =>
    if isDirP fs.shape p then
      let cs := sortedChildren fs.shape p
      let st := cs.foldl
        (fun acc n =>
          let r := fix_metadata_walk lib source_directory dest move fuel acc.1 (p ++ [n])
          (r.1, acc.2 ++ r.2))
        (fs, [])
      let pd := processDirectory lib source_directory dest move st.1 p
      (pd.1, st.2 ++ pd.2)
    else (fs, [])

/-- The length of the longest entry path. -/
def maxPathLen (sh : Shape) : Nat :=
  sh.foldr (fun e m => max e.path.length m) 0

/-- `fix_metadata` (`gtmf.py` lines 175-214): walk the source tree depth-first
post-order and process each directory.  The second component is the sequence
of lines printed on the error channel. -/
def fix_metadata (lib : PyLib) (fs : FS) (source_directory : PyPath)
    (dest : Option PyPath) (move : Bool) : FS × List String :=
  fix_metadata_walk lib source_directory dest move
    (maxPathLen fs.shape + 1) fs source_directory

/-- The observable outcome of `main` (`gtmf.py` lines 238-278): either a hard
startup failure (a failed `assert` or directory creation, before
`fix_metadata` is ever entered), with the filesystem as it stood at that
moment, or a completed run. -/
inductive MainResult where
  | startupFailure : FS → MainResult
  | finished : FS → List String → MainResult
deriving DecidableEq

/-- `main` (`gtmf.py` lines 238-278) after argument parsing: create the source
directory (`mkdir(parents=True, exist_ok=True)`) and assert it is a directory;
create and check the destination when given; assert that `move_unmatched`
implies a destination; then run `fix_metadata`. -/
def main_run (lib : PyLib) (fs : FS) (source_directory : PyPath)
    (dest : Option PyPath) (move_unmatched : Bool) : MainResult :=
  let mk1 := pyMakedirs fs source_directory
  if !mk1.2 then .startupFailure mk1.1
  else if !(isDirP mk1.1.shape source_directory) then .startupFailure mk1.1
  else
    match dest with
    | some d =>
      let mk2 := pyMakedirs mk1.1 d
      if !mk2.2 then .startupFailure mk2.1
      else if !(isDirP mk2.1.shape d) then .startupFailure mk2.1
      else
        let run := fix_metadata lib mk2.1 source_directory (some d) move_unmatched
        .finished run.1 run.2
    | none =>
      if move_unmatched then .startupFailure mk1.1
      else
        let run := fix_metadata lib mk1.1 source_directory none move_unmatched
        .finished run.1 run.2

/-- A sample standard-library bundle used by the concrete witnesses: a
`json.loads` that recognises the handful of payload texts the witnesses use,
plus matching timestamp/float/HTML-title parsers. -/
def sampleLoads (s : String) : Except String JsonVal :=
  if s = "notitle" then .ok (.obj [])
  else if s = "emptyTitles" then
    .ok (.obj [("title", .str ""), ("albumData", .obj [("title", .str "")])])
  else if s = "good" then
    .ok (.obj [("title", .str "photo.jpg"),
               ("photoTakenTime", .obj [("timestamp", .str "100")])])
  else if s = "titled" then .ok (.obj [("title", .str "photo.jpg")])
  else if s = "quirky" then .ok (.obj [("title", .str "a\x27b/c")])
  else if s = "badstamp" then
    .ok (.obj [("title", .str "photo.jpg"),
               ("last_modified_by_any_user", .num 3)])
  else .error "JSONDecodeError"

def sampleLib : PyLib where
  loads := sampleLoads
  strptimeTs := fun s =>
    if s = "2020-01-01T00:00:00.000000Z" then .ok 1577836800 else .error "ValueError"
  floatStr := fun s => if s = "100" then .ok 100 else .error "ValueError"
  htmlTitle := fun s =>
    if s = "<html><title>pic.jpg</title></html>" then .ok (some "pic.jpg")
    else .ok none

/-- Concrete tree for the move-unmatched counterexample: a source root `s`
holding directory `d` with an unparseable-title sidecar, and a destination
root `t`. -/
def fsC7 : FS :=
  ⟨[⟨["s"], true, "", 0⟩,
    ⟨["s", "d"], true, "", 0⟩,
    ⟨["s", "d", "a.json"], false, "notitle", 7⟩,
    ⟨["t"], true, "", 0⟩]⟩

/-- Concrete tree for the empty-title counterexample: directory `d` holding a
sidecar whose `title` and `albumData.title` are both the empty string. -/
def shC10 : Shape :=
  [⟨["d"], true, ""⟩, ⟨["d", "x.json"], false, "emptyTitles"⟩]


/-! ### Write-plan algebra

A run of `fix_metadata` with no destination configured only ever mutates the
filesystem through `os.utime`.  The lemmas below factor such a run into a
*plan* — the list of `(path, time)` writes it performs — computed from the
mtime-erased shape alone, and show that replaying a plan twice equals
replaying it once. -/

/-- One `utime` write, applied to one entry. -/
def entUpd (a : PyPath × ℚ) (e : Entry) : Entry :=
  if e.path = a.1 then { e with mtime := a.2 } else e

/-- A list of `utime` writes, applied in order to one entry. -/
def entApply (A : List (PyPath × ℚ)) (e : Entry) : Entry :=
  A.foldl (fun acc a => entUpd a acc) e

/-- A list of `utime` writes, applied in order to the filesystem. -/
def applyOps (fs : FS) (A : List (PyPath × ℚ)) : FS :=
  A.foldl (fun f a => f.utime a.1 a.2) fs

/-- The final mtime of a path after a list of writes: the last write to that
path wins, otherwise the initial value survives. -/
def mtimeFold (A : List (PyPath × ℚ)) (p : PyPath) (m : ℚ) : ℚ :=
  A.foldl (fun acc a => if p = a.1 then a.2 else acc) m

theorem entUpd_toS (a : PyPath × ℚ) (e : Entry) : (entUpd a e).toS = e.toS := by
  unfold entUpd
  by_cases h : e.path = a.1 <;> simp [h, Entry.toS]

theorem entUpd_path (a : PyPath × ℚ) (e : Entry) : (entUpd a e).path = e.path := by
  unfold entUpd
  by_cases h : e.path = a.1 <;> simp [h]

theorem utime_eq_map (fs : FS) (p : PyPath) (t : ℚ) :
    fs.utime p t = ⟨fs.entries.map (entUpd (p, t))⟩ := rfl

theorem shape_utime (fs : FS) (p : PyPath) (t : ℚ) :
    (fs.utime p t).shape = fs.shape := by
  rw [utime_eq_map]
  simp [FS.shape, List.map_map, Function.comp_def, entUpd_toS]

theorem applyOps_cons (fs : FS) (a : PyPath × ℚ) (A : List (PyPath × ℚ)) :
    applyOps fs (a :: A) = applyOps (fs.utime a.1 a.2) A := rfl

theorem shape_applyOps (fs : FS) (A : List (PyPath × ℚ)) :
    (applyOps fs A).shape = fs.shape := by
  induction A generalizing fs with
  | nil => rfl
  | cons a A ih => rw [applyOps_cons, ih, shape_utime]

theorem applyOps_append (fs : FS) (A B : List (PyPath × ℚ)) :
    applyOps fs (A ++ B) = applyOps (applyOps fs A) B := by
  simp [applyOps, List.foldl_append]

theorem entApply_cons (a : PyPath × ℚ) (A : List (PyPath × ℚ)) (e : Entry) :
    entApply (a :: A) e = entApply A (entUpd a e) := rfl

theorem applyOps_eq_map (fs : FS) (A : List (PyPath × ℚ)) :
    applyOps fs A = ⟨fs.entries.map (entApply A)⟩ := by
  induction A generalizing fs with
  | nil =>
    cases fs with
    | mk es =>
      have h : es.map (entApply []) = es.map id := List.map_congr_left (fun e _ => rfl)
      simp only [applyOps, List.foldl_nil, h, List.map_id]
  | cons a A ih =>
    rw [applyOps_cons, ih, utime_eq_map]
    simp only [List.map_map]
    congr 1

theorem entApply_path (A : List (PyPath × ℚ)) (e : Entry) :
    (entApply A e).path = e.path := by
  induction A generalizing e with
  | nil => rfl
  | cons a A ih => rw [entApply_cons, ih, entUpd_path]

theorem mtimeFold_cons (a : PyPath × ℚ) (A : List (PyPath × ℚ)) (p : PyPath) (m : ℚ) :
    mtimeFold (a :: A) p m = mtimeFold A p (if p = a.1 then a.2 else m) := rfl

theorem entApply_eq (A : List (PyPath × ℚ)) (e : Entry) :
    entApply A e = { e with mtime := mtimeFold A e.path e.mtime } := by
  induction A generalizing e with
  | nil => rfl
  | cons a A ih =>
    rw [entApply_cons, ih, mtimeFold_cons, entUpd_path]
    unfold entUpd
    by_cases h : e.path = a.1
    · simp [h]
    · simp [h]

/-- Whether the write list touches path `p`. -/
def hitB (A : List (PyPath × ℚ)) (p : PyPath) : Bool :=
  A.any (fun a => a.1 = p)

theorem hitB_cons (a : PyPath × ℚ) (A : List (PyPath × ℚ)) (p : PyPath) :
    hitB (a :: A) p = (decide (a.1 = p) || hitB A p) := by
  simp [hitB, List.any_cons]

theorem mtimeFold_hit (A : List (PyPath × ℚ)) (p : PyPath) (h : hitB A p = true) :
    ∀ m m' : ℚ, mtimeFold A p m = mtimeFold A p m' := by
  induction A with
  | nil => simp [hitB] at h
  | cons a A ih =>
    intro m m'
    rw [mtimeFold_cons, mtimeFold_cons]
    by_cases hp : p = a.1
    · rw [if_pos hp, if_pos hp]
    · rw [if_neg hp, if_neg hp]
      rw [hitB_cons] at h
      have ha : decide (a.1 = p) = false := decide_eq_false (fun hh => hp hh.symm)
      rw [ha, Bool.false_or] at h
      exact ih h m m'

theorem mtimeFold_nohit (A : List (PyPath × ℚ)) (p : PyPath) (h : hitB A p = false) :
    ∀ m : ℚ, mtimeFold A p m = m := by
  induction A with
  | nil => intro m; rfl
  | cons a A ih =>
    intro m
    rw [hitB_cons] at h
    have h2 := Bool.or_eq_false_iff.mp h
    have hp : ¬ (p = a.1) := fun hh => absurd hh.symm (of_decide_eq_false h2.1)
    rw [mtimeFold_cons, if_neg hp]
    exact ih h2.2 m

theorem entApply_idem (A : List (PyPath × ℚ)) (e : Entry) :
    entApply A (entApply A e) = entApply A e := by
  rw [entApply_eq A e, entApply_eq A]
  simp only
  cases hh : hitB A e.path with
  | true => congr 1; exact mtimeFold_hit A e.path hh _ _
  | false => rw [mtimeFold_nohit A e.path hh, mtimeFold_nohit A e.path hh]

theorem applyOps_idem (fs : FS) (A : List (PyPath × ℚ)) :
    applyOps (applyOps fs A) A = applyOps fs A := by
  rw [applyOps_eq_map fs A, applyOps_eq_map]
  simp only [List.map_map]
  congr 1
  exact List.map_congr_left (fun e _ => entApply_idem A e)

/-- The writes one record's `apply` performs, read off the shape: a JSON
record writes its extracted timestamp to its primary when that primary
exists; extraction failures, missing fields, missing primaries and HTML
records write nothing. -/
def recPlan (lib : PyLib) (sh : Shape) : PRec → List (PyPath × ℚ)
  | .json r =>
    match JsonParser.extract_timestamp lib r.data with
    | .ok (some t) => if existsP sh r.primary_path then [(r.primary_path, t)] else []
    | _ => []
  | .html _ => []

/-- The writes of a record list, in processing order. -/
def plansOf (lib : PyLib) (sh : Shape) (rs : List PRec) : List (PyPath × ℚ) :=
  (rs.map (recPlan lib sh)).flatten

/-- The writes of one directory's processing. -/
def dirPlan (lib : PyLib) (sh : Shape) (dir : PyPath) : List (PyPath × ℚ) :=
  plansOf lib sh (collectParsers lib sh dir false)

/-- The writes of the whole walk (destination unset, policy off). -/
def walkPlan (lib : PyLib) : Nat → Shape → PyPath → List (PyPath × ℚ)
  | 0, _, _ => []
  | fuel + 1, sh, p =>
    if isDirP sh p then
      ((sortedChildren sh p).map (fun n => walkPlan lib fuel sh (p ++ [n]))).flatten ++
        dirPlan lib sh p
    else []

theorem applyJson_fst (lib : PyLib) (fs : FS) (r : JsonRec) :
    (JsonParser.apply_metadata_to_primary lib fs r).1 =
      applyOps fs (recPlan lib fs.shape (.json r)) := by
  cases h : JsonParser.extract_timestamp lib r.data with
  | error m =>
    simp [JsonParser.apply_metadata_to_primary, JsonParser.apply_body, recPlan, h, applyOps]
  | ok o =>
    cases o with
    | none =>
      simp [JsonParser.apply_metadata_to_primary, JsonParser.apply_body, recPlan, h, applyOps]
    | some t =>
      by_cases he : existsP fs.shape r.primary_path
      · simp [JsonParser.apply_metadata_to_primary, JsonParser.apply_body, recPlan, h, he,
          JsonParser.apply_modify_timestamp, applyOps]
      · simp [JsonParser.apply_metadata_to_primary, JsonParser.apply_body, recPlan, h, he,
          JsonParser.apply_modify_timestamp, applyOps]

theorem applyRec_fst (lib : PyLib) (fs : FS) (r : PRec) :
    (applyRec lib fs r).1 = applyOps fs (recPlan lib fs.shape r) := by
  cases r with
  | json r => exact applyJson_fst lib fs r
  | html r => rfl

theorem processRecord_noDest (lib : PyLib) (src : PyPath) (fs : FS) (r : PRec) :
    processRecord lib src none false fs r = ((applyRec lib fs r).1, []) := by
  unfold processRecord
  simp

theorem foldRecords_noDest (lib : PyLib) (src : PyPath) (rs : List PRec) :
    ∀ (fs : FS) (errs : List String),
      rs.foldl
        (fun acc r =>
          let st := processRecord lib src none false acc.1 r
          (st.1, acc.2 ++ st.2))
        (fs, errs) =
      (applyOps fs (plansOf lib fs.shape rs), errs) := by
  induction rs with
  | nil => intro fs errs; simp [plansOf, applyOps]
  | cons r rs ih =>
    intro fs errs
    rw [List.foldl_cons]
    have h1 : (let st := processRecord lib src none false fs r
               ((st.1 : FS), errs ++ st.2)) = ((applyRec lib fs r).1, errs) := by
      rw [processRecord_noDest]
      simp
    rw [h1, ih, applyRec_fst, shape_applyOps]
    have h2 : plansOf lib fs.shape (r :: rs) =
        recPlan lib fs.shape r ++ plansOf lib fs.shape rs := by
      simp [plansOf]
    rw [h2, applyOps_append]

theorem processDirectory_noDest (lib : PyLib) (src : PyPath) (fs : FS) (dir : PyPath) :
    processDirectory lib src none false fs dir =
      (applyOps fs (dirPlan lib fs.shape dir), []) := by
  unfold processDirectory dirPlan
  exact foldRecords_noDest lib src _ fs []

theorem foldChildren_noDest (lib : PyLib) (src : PyPath) (fuel : Nat)
    (IH : ∀ (fs : FS) (p : PyPath),
      fix_metadata_walk lib src none false fuel fs p =
        (applyOps fs (walkPlan lib fuel fs.shape p), [])) :
    ∀ (cs : List String) (fs : FS) (errs : List String) (p : PyPath),
      cs.foldl
        (fun acc n =>
          let r := fix_metadata_walk lib src none false fuel acc.1 (p ++ [n])
          (r.1, acc.2 ++ r.2))
        (fs, errs) =
      (applyOps fs ((cs.map (fun n => walkPlan lib fuel fs.shape (p ++ [n]))).flatten),
        errs) := by
  intro cs
  induction cs with
  | nil => intro fs errs p; simp [applyOps]
  | cons c cs ih =>
    intro fs errs p
    rw [List.foldl_cons]
    have h1 : (let r := fix_metadata_walk lib src none false fuel fs (p ++ [c])
               ((r.1 : FS), errs ++ r.2)) =
        (applyOps fs (walkPlan lib fuel fs.shape (p ++ [c])), errs) := by
      rw [IH fs (p ++ [c])]
      simp
    rw [h1, ih, shape_applyOps]
    rw [List.map_cons, List.flatten_cons, applyOps_append]

theorem walk_noDest (lib : PyLib) (src : PyPath) :
    ∀ (fuel : Nat) (fs : FS) (p : PyPath),
      fix_metadata_walk lib src none false fuel fs p =
        (applyOps fs (walkPlan lib fuel fs.shape p), []) := by
  intro fuel
  induction fuel with
  | zero => intro fs p; rfl
  | succ fuel ih =>
    intro fs p
    unfold fix_metadata_walk walkPlan
    by_cases hd : isDirP fs.shape p
    · simp only [hd, if_true]
      rw [foldChildren_noDest lib src fuel ih (sortedChildren fs.shape p) fs [] p]
      rw [processDirectory_noDest, shape_applyOps, applyOps_append]
      simp
    · simp [hd, applyOps]

theorem fix_metadata_noDest (lib : PyLib) (fs : FS) (src : PyPath) :
    fix_metadata lib fs src none false =
      (applyOps fs (walkPlan lib (maxPathLen fs.shape + 1) fs.shape src), []) := by
  unfold fix_metadata
  exact walk_noDest lib src _ fs src

/-! ### Claim theorems -/

/-- C8: running the tool twice on the same tree with no destination configured
is idempotent — the second run returns the filesystem of the first run
unchanged (no further timestamp changes) and an empty error channel (no
errors), because every primary's timestamps already equal the payload-derived
target after the first run. -/
theorem claim_C8_idempotent (lib : PyLib) (fs : FS) (src : PyPath) :
    fix_metadata lib (fix_metadata lib fs src none false).1 src none false =
      ((fix_metadata lib fs src none false).1, []) := by
  rw [fix_metadata_noDest lib fs src]
  simp only
  rw [fix_metadata_noDest, shape_applyOps, applyOps_idem]

/-- C4: for every matched HTML record, `apply` mutates nothing (the filesystem
component of the result is the input filesystem, timestamps included) and
returns `true` exactly when the resolved primary path exists at the moment of
the check; being a total function of the model, it raises no error. -/
theorem claim_C4_html_apply (fs : FS) (r : HtmlRec) :
    (CommentsHtmlParser.apply_metadata_to_primary fs r).1 = fs ∧
    ((CommentsHtmlParser.apply_metadata_to_primary fs r).2 = true ↔
      existsP fs.shape r.primary_path = true) :=
  ⟨rfl, Iff.rfl⟩

/-- C3: neither `create` of either variant nor `apply` ever lets an exception
reach the caller: whenever the body of a `create` raises (any parse or IO
failure), the caller sees `none` (no match); whenever the body of the JSON
`apply` raises, the caller sees `false` with the filesystem unchanged; and the
HTML `apply` is a total existence check. -/
theorem claim_C3_never_throws (lib : PyLib) (sh : Shape) (mp : PyPath)
    (allow : Bool) (fs : FS) (r : JsonRec) (hr : HtmlRec) :
    (∀ m, JsonParser.create_body lib sh mp allow = .error m →
      JsonParser.create lib sh mp allow = none) ∧
    (∀ m, CommentsHtmlParser.create_body lib sh mp allow = .error m →
      CommentsHtmlParser.create lib sh mp allow = none) ∧
    (∀ m, JsonParser.apply_body lib fs r = .error m →
      JsonParser.apply_metadata_to_primary lib fs r = (fs, false)) ∧
    CommentsHtmlParser.apply_metadata_to_primary fs hr =
      (fs, existsP fs.shape hr.primary_path) := by
  refine ⟨?_, ?_, ?_, rfl⟩
  · intro m h
    unfold JsonParser.create
    rw [h]
  · intro m h
    unfold CommentsHtmlParser.create
    rw [h]
  · intro m h
    unfold JsonParser.apply_metadata_to_primary
    rw [h]

/-- Witness for C3 at concrete inputs: an absent metadata file makes both
`create` bodies raise `FileNotFoundError` and the callers see `none`; a
non-string `last_modified_by_any_user` makes the JSON `apply` body raise
`TypeError` and the caller sees `(fs, false)`. -/
theorem claim_C3_never_throws_witness :
    JsonParser.create sampleLib [] ["a.json"] true = none ∧
    CommentsHtmlParser.create sampleLib [] ["c.html"] true = none ∧
    JsonParser.apply_metadata_to_primary sampleLib ⟨[]⟩
      ⟨["a.json"], ["photo.jpg"], .obj [("last_modified_by_any_user", .num 3)]⟩ =
      (⟨[]⟩, false) :=
  ⟨(claim_C3_never_throws sampleLib [] ["a.json"] true ⟨[]⟩
      ⟨["a.json"], ["photo.jpg"], .obj [("last_modified_by_any_user", .num 3)]⟩
      ⟨["c.html"], ["pic.jpg"]⟩).1 "FileNotFoundError" rfl,
   (claim_C3_never_throws sampleLib [] ["c.html"] true ⟨[]⟩
      ⟨["a.json"], ["photo.jpg"], .obj [("last_modified_by_any_user", .num 3)]⟩
      ⟨["c.html"], ["pic.jpg"]⟩).2.1 "FileNotFoundError" rfl,
   (claim_C3_never_throws sampleLib [] ["a.json"] true ⟨[]⟩
      ⟨["a.json"], ["photo.jpg"], .obj [("last_modified_by_any_user", .num 3)]⟩
      ⟨["c.html"], ["pic.jpg"]⟩).2.2.1 "TypeError" rfl⟩

/-! ### Field-presence bridge lemmas -/

theorem any_eq_find_isSome (kvs : List (String × JsonVal)) (k : String) :
    kvs.any (fun kv => kv.1 = k) = (kvs.find? (fun kv => kv.1 = k)).isSome := by
  induction kvs with
  | nil => rfl
  | cons a kvs ih =>
    cases h : (decide (a.1 = k) : Bool) with
    | true => simp [List.any_cons, List.find?_cons, h]
    | false => simp [List.any_cons, List.find?_cons, h, ih]

theorem jGet_some_obj (data : JsonVal) (k : String) (v : JsonVal)
    (h : jGet data k = some v) : ∃ kvs, data = .obj kvs := by
  cases data <;> simp [jGet] at h
  exact ⟨_, rfl⟩

theorem pyIn_of_jGet_some (data : JsonVal) (k : String) (v : JsonVal)
    (h : jGet data k = some v) : pyIn k data = .ok true := by
  obtain ⟨kvs, rfl⟩ := jGet_some_obj data k v h
  simp only [pyIn, any_eq_find_isSome]
  simp only [jGet] at h
  rcases Option.map_eq_some'.mp h with ⟨kv, hfind, _⟩
  rw [hfind]
  rfl

theorem pyIn_of_jGet_none (kvs : List (String × JsonVal)) (k : String)
    (h : jGet (.obj kvs) k = none) : pyIn k (.obj kvs) = .ok false := by
  simp only [pyIn, any_eq_find_isSome]
  simp only [jGet, Option.map_eq_none'] at h
  rw [h]
  rfl

theorem pyGetItem_of_jGet_some (data : JsonVal) (k : String) (v : JsonVal)
    (h : jGet data k = some v) : pyGetItem data k = .ok v := by
  obtain ⟨kvs, rfl⟩ := jGet_some_obj data k v h
  simp only [jGet] at h
  rcases Option.map_eq_some'.mp h with ⟨kv, hfind, hv⟩
  simp only [pyGetItem, hfind, hv]

/-- Once the file is read, parsed to a non-null document and the sanitized
title extracted, `create` is the four-way resolution chain of
`gtmf.py` lines 64-80. -/
theorem create_resolved (lib : PyLib) (sh : Shape) (mp : PyPath) (allow : Bool)
    (txt : String) (data : JsonVal) (st : String)
    (hread : readText sh mp = .ok txt)
    (hload : lib.loads txt = .ok data)
    (hnull : data.isNull = false)
    (htitle : getSanitizedTitle data = .ok (some st)) :
    JsonParser.create lib sh mp allow =
      (if existsP sh (pyJoin (pathParent mp) st) then
        some ⟨mp, pyJoin (pathParent mp) st, data⟩
       else if pathName (pathParent mp) = st then some ⟨mp, pathParent mp, data⟩
       else if allow then some ⟨mp, pyJoin (pathParent mp) st, data⟩
       else none) := by
  unfold JsonParser.create JsonParser.create_body
  simp only [hread, hload, hnull, htitle, Bool.false_eq_true, if_false]
  split_ifs with h1 h2 h3
  · rfl
  · rfl
  · rfl
  · rfl

/-- C1: for every JSON sidecar whose sanitized title is resolved (file read,
parsed to a non-null document, and the title chain produced a sanitized
string), `create` determines the primary by the priority order with the first
hit winning: (1) the sibling path `parent.joinpath(title)` when it exists;
(2) else the containing directory when its name equals the title; (3) else,
with `allow_unmatched_primary_path`, the non-existent sibling path of step 1;
(4) otherwise no match. -/
theorem claim_C1_match_priority (lib : PyLib) (sh : Shape) (mp : PyPath)
    (allow : Bool) (txt : String) (data : JsonVal) (st : String)
    (hread : readText sh mp = .ok txt)
    (hload : lib.loads txt = .ok data)
    (hnull : data.isNull = false)
    (htitle : getSanitizedTitle data = .ok (some st)) :
    (existsP sh (pyJoin (pathParent mp) st) = true →
      JsonParser.create lib sh mp allow =
        some ⟨mp, pyJoin (pathParent mp) st, data⟩) ∧
    (existsP sh (pyJoin (pathParent mp) st) = false →
      pathName (pathParent mp) = st →
      JsonParser.create lib sh mp allow = some ⟨mp, pathParent mp, data⟩) ∧
    (existsP sh (pyJoin (pathParent mp) st) = false →
      ¬ pathName (pathParent mp) = st → allow = true →
      JsonParser.create lib sh mp allow =
        some ⟨mp, pyJoin (pathParent mp) st, data⟩) ∧
    (existsP sh (pyJoin (pathParent mp) st) = false →
      ¬ pathName (pathParent mp) = st → allow = false →
      JsonParser.create lib sh mp allow = none) := by
  rw [create_resolved lib sh mp allow txt data st hread hload hnull htitle]
  refine ⟨fun h1 => ?_, fun h1 h2 => ?_, fun h1 h2 h3 => ?_, fun h1 h2 h3 => ?_⟩
  · simp [h1]
  · simp [h1, h2]
  · simp [h1, h2, h3]
  · simp [h1, h2, h3]

/-- Concrete shape for the C1 witness: a directory holding a photo and its
sidecar. -/
def shC1 : Shape :=
  [⟨["d"], true, ""⟩,
   ⟨["d", "photo.jpg"], false, ""⟩,
   ⟨["d", "photo.json"], false, "titled"⟩]

/-- Witness for C1: with the sibling `photo.jpg` present, `create` resolves
the primary to that sibling (priority step 1). -/
theorem claim_C1_match_priority_witness :
    JsonParser.create sampleLib shC1 ["d", "photo.json"] false =
      some ⟨["d", "photo.json"], pyJoin (pathParent ["d", "photo.json"]) "photo.jpg",
        .obj [("title", .str "photo.jpg")]⟩ :=
  (claim_C1_match_priority sampleLib shC1 ["d", "photo.json"] false "titled"
    (.obj [("title", .str "photo.jpg")]) "photo.jpg" rfl rfl rfl rfl).1 rfl

/-- C5: when the raw extracted title is a string, the title actually used for
the sibling and containing-directory lookups is the sanitized one — every
apostrophe replaced by `_` and every `/` by `-` — and any record `create`
produces has its primary built from that sanitized title (the sibling path
`parent.joinpath(sanitized)`) or is the containing directory; the raw title is
never looked up. -/
theorem claim_C5_sanitized_lookup (lib : PyLib) (sh : Shape) (mp : PyPath)
    (allow : Bool) (txt : String) (data : JsonVal) (raw : String)
    (hread : readText sh mp = .ok txt)
    (hload : lib.loads txt = .ok data)
    (hnull : data.isNull = false)
    (hraw : getTitleVal data = .ok (.str raw)) :
    getSanitizedTitle data =
      .ok (some (replaceChar '/' '-' (replaceChar '\x27' '_' raw))) ∧
    (∀ rec, JsonParser.create lib sh mp allow = some rec →
      rec.primary_path = pyJoin (pathParent mp) (sanitizeTitle raw) ∨
      rec.primary_path = pathParent mp) := by
  have hsan : getSanitizedTitle data = .ok (some (sanitizeTitle raw)) := by
    unfold getSanitizedTitle
    rw [hraw]
  refine ⟨hsan, ?_⟩
  intro rec hrec
  rw [create_resolved lib sh mp allow txt data (sanitizeTitle raw)
    hread hload hnull hsan] at hrec
  split at hrec
  · left
    rw [← Option.some.inj hrec]
  · split at hrec
    · right
      rw [← Option.some.inj hrec]
    · split at hrec
      · left
        rw [← Option.some.inj hrec]
      · exact absurd hrec (by simp)

/-- Witness for C5: the raw title `a'b/c` is sanitized to `a_b-c` before any
lookup. -/
theorem claim_C5_sanitized_lookup_witness :
    getSanitizedTitle (.obj [("title", .str "a\x27b/c")]) =
      .ok (some (replaceChar '/' '-' (replaceChar '\x27' '_' "a\x27b/c"))) :=
  (claim_C5_sanitized_lookup sampleLib
    [⟨["d"], true, ""⟩, ⟨["d", "meta.json"], false, "quirky"⟩]
    ["d", "meta.json"] false "quirky" (.obj [("title", .str "a\x27b/c")])
    "a\x27b/c" rfl rfl rfl rfl).1

/-! ### Timestamp-extraction lemmas for C2 -/

theorem extract_guard_a (lib : PyLib) (data : JsonVal) (s : String) (t : ℚ)
    (ha : pyIn "last_modified_by_any_user" data = .ok true)
    (hv : pyGetItem data "last_modified_by_any_user" = .ok (.str s))
    (hs : lib.strptimeTs s = .ok t) :
    JsonParser.extract_timestamp lib data = .ok (some t) := by
  unfold JsonParser.extract_timestamp
  simp only [ha, hv, hs]

theorem extract_guard_b (lib : PyLib) (data ptv tv : JsonVal) (q : ℚ)
    (ha : pyIn "last_modified_by_any_user" data = .ok false)
    (hb : JsonParser.pyInChain2 data "photoTakenTime" "timestamp" = .ok true)
    (hb1 : pyGetItem data "photoTakenTime" = .ok ptv)
    (hb2 : pyGetItem ptv "timestamp" = .ok tv)
    (hq : JsonParser.pyFloat lib tv = .ok q) :
    JsonParser.extract_timestamp lib data = .ok (some q) := by
  unfold JsonParser.extract_timestamp
  simp only [ha, hb, hb1, hb2, hq]

theorem extract_guard_c (lib : PyLib) (data dv tv : JsonVal) (q : ℚ)
    (ha : pyIn "last_modified_by_any_user" data = .ok false)
    (hb : JsonParser.pyInChain2 data "photoTakenTime" "timestamp" = .ok false)
    (hc : JsonParser.pyInChain2 data "date" "timestamp" = .ok true)
    (hc1 : pyGetItem data "date" = .ok dv)
    (hc2 : pyGetItem dv "timestamp" = .ok tv)
    (hq : JsonParser.pyFloat lib tv = .ok q) :
    JsonParser.extract_timestamp lib data = .ok (some q) := by
  unfold JsonParser.extract_timestamp
  simp only [ha, hb, hc, hc1, hc2, hq]

theorem extract_guard_d (lib : PyLib) (data ad dd tv : JsonVal) (q : ℚ)
    (ha : pyIn "last_modified_by_any_user" data = .ok false)
    (hb : JsonParser.pyInChain2 data "photoTakenTime" "timestamp" = .ok false)
    (hc : JsonParser.pyInChain2 data "date" "timestamp" = .ok false)
    (hd : JsonParser.pyInChain3 data "albumData" "date" "timestamp" = .ok true)
    (hd1 : pyGetItem data "albumData" = .ok ad)
    (hd2 : pyGetItem ad "date" = .ok dd)
    (hd3 : pyGetItem dd "timestamp" = .ok tv)
    (hq : JsonParser.pyFloat lib tv = .ok q) :
    JsonParser.extract_timestamp lib data = .ok (some q) := by
  unfold JsonParser.extract_timestamp
  simp only [ha, hb, hc, hd, hd1, hd2, hd3, hq]

theorem extract_guard_none (lib : PyLib) (data : JsonVal)
    (ha : pyIn "last_modified_by_any_user" data = .ok false)
    (hb : JsonParser.pyInChain2 data "photoTakenTime" "timestamp" = .ok false)
    (hc : JsonParser.pyInChain2 data "date" "timestamp" = .ok false)
    (hd : JsonParser.pyInChain3 data "albumData" "date" "timestamp" = .ok false) :
    JsonParser.extract_timestamp lib data = .ok none := by
  unfold JsonParser.extract_timestamp
  simp only [ha, hb, hc, hd]

theorem apply_of_extract_some (lib : PyLib) (fs : FS) (r : JsonRec) (t : ℚ)
    (h : JsonParser.extract_timestamp lib r.data = .ok (some t)) :
    JsonParser.apply_metadata_to_primary lib fs r =
      JsonParser.apply_modify_timestamp fs r.primary_path t := by
  unfold JsonParser.apply_metadata_to_primary JsonParser.apply_body
  simp only [h]

theorem apply_of_extract_none (lib : PyLib) (fs : FS) (r : JsonRec)
    (h : JsonParser.extract_timestamp lib r.data = .ok none) :
    JsonParser.apply_metadata_to_primary lib fs r = (fs, false) := by
  unfold JsonParser.apply_metadata_to_primary JsonParser.apply_body
  simp only [h]

/-- C2: for every matched JSON record, `apply` extracts the timestamp from the
payload fields in priority order — (a) `last_modified_by_any_user` decoded by
the ISO-8601 parser, (b) `photoTakenTime.timestamp`, (c) `date.timestamp`,
(d) `albumData.date.timestamp` decoded by `float` — the first field whose
membership guard holds winning, and applies it to the primary.  Each attempt
is guarded independently: every fall-through hypothesis is the previous guard
evaluating to `False` exactly as the code evaluates it (`k in data` for (a),
`k in data and 'timestamp' in data[k]` for (b)/(c), the three-level chain for
(d)), so a guard that fails on its *inner* key — e.g. `photoTakenTime`
present but holding no `timestamp` — falls through to the next field just
like an absent outer key.  When all four guards are `False` (none of the four
dotted fields is present), `apply` returns `false`. -/
theorem claim_C2_timestamp_priority (lib : PyLib) (fs : FS) (r : JsonRec) :
    (∀ s t, pyIn "last_modified_by_any_user" r.data = .ok true →
      pyGetItem r.data "last_modified_by_any_user" = .ok (.str s) →
      lib.strptimeTs s = .ok t →
      JsonParser.apply_metadata_to_primary lib fs r =
        JsonParser.apply_modify_timestamp fs r.primary_path t) ∧
    (∀ ptv tv q, pyIn "last_modified_by_any_user" r.data = .ok false →
      JsonParser.pyInChain2 r.data "photoTakenTime" "timestamp" = .ok true →
      pyGetItem r.data "photoTakenTime" = .ok ptv →
      pyGetItem ptv "timestamp" = .ok tv → JsonParser.pyFloat lib tv = .ok q →
      JsonParser.apply_metadata_to_primary lib fs r =
        JsonParser.apply_modify_timestamp fs r.primary_path q) ∧
    (∀ dv tv q, pyIn "last_modified_by_any_user" r.data = .ok false →
      JsonParser.pyInChain2 r.data "photoTakenTime" "timestamp" = .ok false →
      JsonParser.pyInChain2 r.data "date" "timestamp" = .ok true →
      pyGetItem r.data "date" = .ok dv →
      pyGetItem dv "timestamp" = .ok tv → JsonParser.pyFloat lib tv = .ok q →
      JsonParser.apply_metadata_to_primary lib fs r =
        JsonParser.apply_modify_timestamp fs r.primary_path q) ∧
    (∀ ad dd tv q, pyIn "last_modified_by_any_user" r.data = .ok false →
      JsonParser.pyInChain2 r.data "photoTakenTime" "timestamp" = .ok false →
      JsonParser.pyInChain2 r.data "date" "timestamp" = .ok false →
      JsonParser.pyInChain3 r.data "albumData" "date" "timestamp" = .ok true →
      pyGetItem r.data "albumData" = .ok ad →
      pyGetItem ad "date" = .ok dd →
      pyGetItem dd "timestamp" = .ok tv → JsonParser.pyFloat lib tv = .ok q →
      JsonParser.apply_metadata_to_primary lib fs r =
        JsonParser.apply_modify_timestamp fs r.primary_path q) ∧
    (pyIn "last_modified_by_any_user" r.data = .ok false →
      JsonParser.pyInChain2 r.data "photoTakenTime" "timestamp" = .ok false →
      JsonParser.pyInChain2 r.data "date" "timestamp" = .ok false →
      JsonParser.pyInChain3 r.data "albumData" "date" "timestamp" = .ok false →
      JsonParser.apply_metadata_to_primary lib fs r = (fs, false)) := by
  refine ⟨?_, ?_, ?_, ?_, ?_⟩
  · intro s t ha hv hs
    exact apply_of_extract_some lib fs r t (extract_guard_a lib r.data s t ha hv hs)
  · intro ptv tv q ha hb hb1 hb2 hq
    exact apply_of_extract_some lib fs r q
      (extract_guard_b lib r.data ptv tv q ha hb hb1 hb2 hq)
  · intro dv tv q ha hb hc hc1 hc2 hq
    exact apply_of_extract_some lib fs r q
      (extract_guard_c lib r.data dv tv q ha hb hc hc1 hc2 hq)
  · intro ad dd tv q ha hb hc hd hd1 hd2 hd3 hq
    exact apply_of_extract_some lib fs r q
      (extract_guard_d lib r.data ad dd tv q ha hb hc hd hd1 hd2 hd3 hq)
  · intro ha hb hc hd
    exact apply_of_extract_none lib fs r (extract_guard_none lib r.data ha hb hc hd)

/-- Concrete record and filesystem for the C2 witness: the payload carries a
`photoTakenTime` object *without* a `timestamp` key — so guard (b) is entered
on its outer key and fails on its inner key — and a `date.timestamp`, so the
run must fall through to field (c). -/
def recC2 : JsonRec :=
  ⟨["s", "photo.json"], ["s", "photo.jpg"],
    .obj [("title", .str "photo.jpg"),
          ("photoTakenTime", .obj []),
          ("date", .obj [("timestamp", .str "100")])]⟩

def fsC2 : FS :=
  ⟨[⟨["s"], true, "", 0⟩,
    ⟨["s", "photo.jpg"], false, "", 5⟩,
    ⟨["s", "photo.json"], false, "good", 3⟩]⟩

/-- Witness for C2 at field (c) through an inner-key guard failure: with
`last_modified_by_any_user` absent and `photoTakenTime` present but lacking
`timestamp`, guard (b) falls through and `date.timestamp` = `"100"` sets the
primary's time to `100`. -/
theorem claim_C2_timestamp_priority_witness :
    JsonParser.apply_metadata_to_primary sampleLib fsC2 recC2 =
      JsonParser.apply_modify_timestamp fsC2 recC2.primary_path 100 :=
  (claim_C2_timestamp_priority sampleLib fsC2 recC2).2.2.1
    (.obj [("timestamp", .str "100")]) (.str "100") 100 rfl rfl rfl rfl rfl rfl

/-! ### C10: empty-title fallback -/

theorem pyGet_obj (kvs : List (String × JsonVal)) (k : String) (d : JsonVal) :
    pyGet (.obj kvs) k d = .ok ((jGet (.obj kvs) k).getD d) := by
  simp only [pyGet, jGet]
  cases h : kvs.find? (fun kv => kv.1 = k) <;> simp

theorem create_of_sanitize_error (lib : PyLib) (sh : Shape) (mp : PyPath)
    (allow : Bool) (txt : String) (data : JsonVal) (m : String)
    (hread : readText sh mp = .ok txt)
    (hload : lib.loads txt = .ok data)
    (hnull : data.isNull = false)
    (ht : getSanitizedTitle data = .error m) :
    JsonParser.create lib sh mp allow = none := by
  unfold JsonParser.create JsonParser.create_body
  simp only [hread, hload, hnull, ht, Bool.false_eq_true, if_false]

theorem create_of_sanitize_none (lib : PyLib) (sh : Shape) (mp : PyPath)
    (allow : Bool) (txt : String) (data : JsonVal)
    (hread : readText sh mp = .ok txt)
    (hload : lib.loads txt = .ok data)
    (hnull : data.isNull = false)
    (ht : getSanitizedTitle data = .ok none) :
    JsonParser.create lib sh mp allow = none := by
  unfold JsonParser.create JsonParser.create_body
  simp only [hread, hload, hnull, ht, Bool.false_eq_true, if_false]

/-- C10 counterexample: a sidecar whose `title` is present but empty and whose
`albumData.title` is also the empty string does *not* produce "no match" — the
empty fallback title survives the `is None` check, `joinpath("")` degenerates
to the containing directory, and `create` matches that directory. -/
theorem claim_C10_counterexample :
    (JsonParser.create sampleLib shC10 ["d", "x.json"] false).map
      (fun r => (r.metadata_path, r.primary_path)) =
      some (["d", "x.json"], ["d"]) := by decide

/-- C10 (amended): for a JSON sidecar whose top-level `title` field is present
but equal to the empty string, the matcher does not use it and falls back to
`albumData.title` (the fallback is driven by truthiness, not absence).  If
`albumData` is absent (the default `[]` has no `.get`) or is a dictionary
without `title`, the result is no match; but if the fallback yields the empty
string, the empty title proceeds to the lookup, where the sibling path
degenerates to the containing directory, so `create` matches the containing
directory when it exists rather than reporting no match. -/
theorem claim_C10_empty_title_fallback (lib : PyLib) (sh : Shape) (mp : PyPath)
    (allow : Bool) (txt : String) (kvs : List (String × JsonVal))
    (hread : readText sh mp = .ok txt)
    (hload : lib.loads txt = .ok (.obj kvs))
    (htitle : jGet (.obj kvs) "title" = some (.str "")) :
    (jGet (.obj kvs) "albumData" = none →
      JsonParser.create lib sh mp allow = none) ∧
    (∀ akvs, jGet (.obj kvs) "albumData" = some (.obj akvs) →
      jGet (.obj akvs) "title" = none →
      JsonParser.create lib sh mp allow = none) ∧
    (∀ akvs, jGet (.obj kvs) "albumData" = some (.obj akvs) →
      jGet (.obj akvs) "title" = some (.str "") →
      existsP sh (pathParent mp) = true →
      JsonParser.create lib sh mp allow =
        some ⟨mp, pathParent mp, .obj kvs⟩) := by
  have hjoin : pyJoin (pathParent mp) "" = pathParent mp := by
    simp [pyJoin, pySegs, splitOnSlash, strStartsWith, listStartsWith]
  refine ⟨?_, ?_, ?_⟩
  · intro halb
    have ht : getSanitizedTitle (.obj kvs) = .error "AttributeError" := by
      unfold getSanitizedTitle getTitleVal
      simp only [pyGet_obj, htitle, halb, Option.getD_some, Option.getD_none]
      rfl
    exact create_of_sanitize_error lib sh mp allow txt (.obj kvs)
      "AttributeError" hread hload rfl ht
  · intro akvs halb hat
    have ht : getSanitizedTitle (.obj kvs) = .ok none := by
      unfold getSanitizedTitle getTitleVal
      simp only [pyGet_obj, htitle, halb, hat, Option.getD_some, Option.getD_none]
      rfl
    exact create_of_sanitize_none lib sh mp allow txt (.obj kvs)
      hread hload rfl ht
  · intro akvs halb hat hex
    have ht : getSanitizedTitle (.obj kvs) = .ok (some "") := by
      unfold getSanitizedTitle getTitleVal
      simp only [pyGet_obj, htitle, halb, hat, Option.getD_some]
      rfl
    have h := create_resolved lib sh mp allow txt (.obj kvs) "" hread hload rfl ht
    rw [hjoin] at h
    rw [h, if_pos hex]

/-- Witness for the amended C10: the concrete empty-title sidecar of the
counterexample matches its containing directory `d`. -/
theorem claim_C10_empty_title_fallback_witness :
    JsonParser.create sampleLib shC10 ["d", "x.json"] false =
      some ⟨["d", "x.json"], pathParent ["d", "x.json"],
        .obj [("title", .str ""), ("albumData", .obj [("title", .str "")])]⟩ :=
  (claim_C10_empty_title_fallback sampleLib shC10 ["d", "x.json"] false
    "emptyTitles" [("title", .str ""), ("albumData", .obj [("title", .str "")])]
    rfl rfl rfl).2.2 [("title", .str "")] rfl rfl rfl

/-! ### Makedirs and rename lemmas for C6 / C9 -/

theorem sfind_shape (fs : FS) (p : PyPath) :
    sfind fs.shape p = (fs.lookup p).map Entry.toS := by
  show (fs.entries.map Entry.toS).find? (fun e => e.path = p) =
    (fs.entries.find? (fun e => e.path = p)).map Entry.toS
  induction fs.entries with
  | nil => rfl
  | cons e es ih =>
    cases h : (decide (e.path = p) : Bool) with
    | true => simp [List.find?_cons, Entry.toS, h]
    | false => simp [List.find?_cons, Entry.toS, h, ih]

theorem existsP_shape (fs : FS) (p : PyPath) :
    existsP fs.shape p = (fs.lookup p).isSome := by
  rw [existsP, sfind_shape]
  cases fs.lookup p <;> rfl

theorem isDirP_shape (fs : FS) (p : PyPath) :
    isDirP fs.shape p =
      (match fs.lookup p with
       | some e => e.isDir
       | none => false) := by
  rw [isDirP, sfind_shape]
  cases fs.lookup p <;> rfl

theorem lookup_append_dir (fs : FS) (q p : PyPath) :
    FS.lookup ⟨fs.entries ++ [⟨q, true, "", 0⟩]⟩ p =
      (match fs.lookup p with
       | some e => some e
       | none => if q = p then some ⟨q, true, "", 0⟩ else none) := by
  show (fs.entries ++ [(⟨q, true, "", 0⟩ : Entry)]).find? (fun e => e.path = p) = _
  rw [List.find?_append]
  cases h : fs.entries.find? (fun e => e.path = p) with
  | some e =>
    rw [show fs.lookup p = some e from h]
    rfl
  | none =>
    rw [show fs.lookup p = none from h]
    by_cases hq : q = p
    · simp [List.find?_cons, hq]
    · simp [List.find?_cons, hq]

theorem fileAt_append_dir (fs : FS) (q p : PyPath) :
    fileAt ⟨fs.entries ++ [⟨q, true, "", 0⟩]⟩ p = fileAt fs p := by
  unfold fileAt
  rw [lookup_append_dir]
  cases h : fs.lookup p with
  | some e => rfl
  | none =>
    by_cases hq : q = p
    · simp [hq]
    · simp [hq]

theorem mkdirList_cons_dir (fs : FS) (q : PyPath) (qs : List PyPath) (e : Entry)
    (hl : fs.lookup q = some e) (he : e.isDir = true) :
    mkdirList fs (q :: qs) = mkdirList fs qs := by
  conv_lhs => unfold mkdirList
  rw [hl]
  simp [he]

theorem mkdirList_cons_file (fs : FS) (q : PyPath) (qs : List PyPath) (e : Entry)
    (hl : fs.lookup q = some e) (he : e.isDir = false) :
    mkdirList fs (q :: qs) = (fs, false) := by
  conv_lhs => unfold mkdirList
  rw [hl]
  simp [he]

theorem mkdirList_cons_new (fs : FS) (q : PyPath) (qs : List PyPath)
    (hl : fs.lookup q = none) :
    mkdirList fs (q :: qs) =
      mkdirList ⟨fs.entries ++ [⟨q, true, "", 0⟩]⟩ qs := by
  conv_lhs => unfold mkdirList
  rw [hl]

theorem mkdirList_fileAt (qs : List PyPath) (fs : FS) (p : PyPath) :
    fileAt ((mkdirList fs qs).1) p = fileAt fs p := by
  induction qs generalizing fs with
  | nil => rfl
  | cons q qs ih =>
    cases h : fs.lookup q with
    | some e =>
      cases he : e.isDir with
      | true => rw [mkdirList_cons_dir fs q qs e h he, ih fs]
      | false => rw [mkdirList_cons_file fs q qs e h he]
    | none =>
      rw [mkdirList_cons_new fs q qs h, ih, fileAt_append_dir]

theorem mkdirList_lookup_notmem (qs : List PyPath) (fs : FS) (p : PyPath)
    (hp : p ∉ qs) : ((mkdirList fs qs).1).lookup p = fs.lookup p := by
  induction qs generalizing fs with
  | nil => rfl
  | cons q qs ih =>
    have hpq : p ≠ q := fun h => hp (h ▸ List.mem_cons_self q qs)
    have hp' : p ∉ qs := fun h => hp (List.mem_cons_of_mem q h)
    cases h : fs.lookup q with
    | some e =>
      cases he : e.isDir with
      | true => rw [mkdirList_cons_dir fs q qs e h he, ih fs hp']
      | false => rw [mkdirList_cons_file fs q qs e h he]
    | none =>
      rw [mkdirList_cons_new fs q qs h, ih _ hp', lookup_append_dir]
      have hq : ¬ (q = p) := fun hh => hpq hh.symm
      cases hl : fs.lookup p with
      | some e => rfl
      | none => simp [hq]

theorem mkdirList_success_fileAt_none (qs : List PyPath) (fs : FS)
    (h : (mkdirList fs qs).2 = true) :
    ∀ q ∈ qs, fileAt fs q = none := by
  induction qs generalizing fs with
  | nil => intro q hq; cases hq
  | cons q0 qs ih =>
    intro q hq
    cases hl : fs.lookup q0 with
    | some e =>
      cases he : e.isDir with
      | true =>
        rw [mkdirList_cons_dir fs q0 qs e hl he] at h
        rcases List.mem_cons.mp hq with hq0 | hqs
        · subst hq0
          unfold fileAt
          simp only [hl, he, if_true]
        · exact ih fs h q hqs
      | false =>
        rw [mkdirList_cons_file fs q0 qs e hl he] at h
        cases h
    | none =>
      rw [mkdirList_cons_new fs q0 qs hl] at h
      rcases List.mem_cons.mp hq with hq0 | hqs
      · subst hq0
        unfold fileAt
        simp only [hl]
      · have hres := ih ⟨fs.entries ++ [⟨q0, true, "", 0⟩]⟩ h q hqs
        rw [fileAt_append_dir] at hres
        exact hres

theorem isDirP_mkdirList_mono (qs : List PyPath) (fs : FS) (x : PyPath)
    (h : isDirP fs.shape x = true) :
    isDirP ((mkdirList fs qs).1).shape x = true := by
  induction qs generalizing fs with
  | nil => exact h
  | cons q qs ih =>
    cases hl : fs.lookup q with
    | some e =>
      cases he : e.isDir with
      | true => rw [mkdirList_cons_dir fs q qs e hl he]; exact ih fs h
      | false => rw [mkdirList_cons_file fs q qs e hl he]; exact h
    | none =>
      rw [mkdirList_cons_new fs q qs hl]
      apply ih
      rw [isDirP_shape] at h ⊢
      rw [lookup_append_dir]
      cases hx : fs.lookup x with
      | some e => rw [hx] at h; exact h
      | none => rw [hx] at h; cases h

theorem mkdirList_success_isDir (qs : List PyPath) (fs : FS)
    (h : (mkdirList fs qs).2 = true) :
    ∀ q ∈ qs, isDirP ((mkdirList fs qs).1).shape q = true := by
  induction qs generalizing fs with
  | nil => intro q hq; cases hq
  | cons q0 qs ih =>
    intro q hq
    cases hl : fs.lookup q0 with
    | some e =>
      cases he : e.isDir with
      | true =>
        rw [mkdirList_cons_dir fs q0 qs e hl he] at h ⊢
        rcases List.mem_cons.mp hq with hq0 | hqs
        · subst hq0
          apply isDirP_mkdirList_mono
          rw [isDirP_shape, hl]
          exact he
        · exact ih fs h q hqs
      | false =>
        rw [mkdirList_cons_file fs q0 qs e hl he] at h
        cases h
    | none =>
      rw [mkdirList_cons_new fs q0 qs hl] at h ⊢
      rcases List.mem_cons.mp hq with hq0 | hqs
      · subst hq0
        apply isDirP_mkdirList_mono
        rw [isDirP_shape, lookup_append_dir, hl]
        simp
      · exact ih _ h q hqs

theorem mkdirList_mem (qs : List PyPath) (fs : FS) :
    ∀ e ∈ ((mkdirList fs qs).1).entries,
      e ∈ fs.entries ∨ (e.path ∈ qs ∧ e.isDir = true) := by
  induction qs generalizing fs with
  | nil => intro e he; exact Or.inl he
  | cons q qs ih =>
    intro e he
    cases hl : fs.lookup q with
    | some e0 =>
      cases he0 : e0.isDir with
      | true =>
        rw [mkdirList_cons_dir fs q qs e0 hl he0] at he
        rcases ih fs e he with h | ⟨h1, h2⟩
        · exact Or.inl h
        · exact Or.inr ⟨List.mem_cons_of_mem q h1, h2⟩
      | false =>
        rw [mkdirList_cons_file fs q qs e0 hl he0] at he
        exact Or.inl he
    | none =>
      rw [mkdirList_cons_new fs q qs hl] at he
      rcases ih ⟨fs.entries ++ [⟨q, true, "", 0⟩]⟩ e he with h | ⟨h1, h2⟩
      · rcases List.mem_append.mp h with h' | h'
        · exact Or.inl h'
        · rcases List.mem_singleton.mp h' with rfl
          exact Or.inr ⟨List.mem_cons_self q qs, rfl⟩
      · exact Or.inr ⟨List.mem_cons_of_mem q h1, h2⟩

/-- `p.isPrefixOf p` holds. -/
theorem isPrefixOf_self (p : PyPath) : p.isPrefixOf p = true :=
  List.isPrefixOf_iff_prefix.mpr (List.prefix_refl p)

/-- The per-entry re-rooting `rename` performs on the subtree of `p`. -/
def moveEnt (p q : PyPath) (e : Entry) : Entry :=
  if p.isPrefixOf e.path then { e with path := q ++ e.path.drop p.length } else e

theorem rename_ok (fs : FS) (p q : PyPath)
    (hex : existsP fs.shape p = true) (hq : isDirP fs.shape q = false) :
    fs.rename p q =
      .ok ⟨(fs.entries.filter (fun e => !(e.path = q : Bool))).map (moveEnt p q)⟩ := by
  unfold FS.rename
  rw [hex, hq]
  rfl

theorem moveEnt_at_p (p q : PyPath) (e : Entry) (he : e.path = p) :
    moveEnt p q e = { e with path := q } := by
  unfold moveEnt
  rw [he, if_pos (isPrefixOf_self p)]
  simp [List.drop_length]

theorem moveEnt_untouched (p q : PyPath) (e : Entry)
    (he : p.isPrefixOf e.path = false) : moveEnt p q e = e := by
  unfold moveEnt
  rw [he]
  rfl

theorem path_ne_p_of_not_pref (p : PyPath) (e : Entry)
    (hpre : p.isPrefixOf e.path = false) : ¬ (e.path = p) := by
  intro hh
  rw [hh, isPrefixOf_self] at hpre
  cases hpre

theorem renamed_find_other (es : List Entry) (p q x : PyPath)
    (hdesc : ∀ e ∈ es, p.isPrefixOf e.path = true → e.path = p)
    (hx_p : x ≠ p) (hx_q : x ≠ q) :
    ((es.filter (fun e => !(e.path = q : Bool))).map (moveEnt p q)).find?
      (fun e => e.path = x) = es.find? (fun e => e.path = x) := by
  induction es with
  | nil => rfl
  | cons e es ih =>
    have hd := hdesc e (List.mem_cons_self e es)
    have ih' := ih (fun e' he' hp => hdesc e' (List.mem_cons_of_mem e he') hp)
    have hqx : ¬ (q = x) := fun hh => hx_q hh.symm
    have hpx : ¬ (p = x) := fun hh => hx_p hh.symm
    by_cases heq : e.path = q
    · have hne : ¬ (e.path = x) := by
        rw [heq]
        exact fun hh => hx_q hh.symm
      simp [List.filter_cons, List.find?_cons, heq, hne, hqx, ih']
    · cases hpre : p.isPrefixOf e.path with
      | true =>
        have hep : e.path = p := hd hpre
        have h1 : ¬ ((moveEnt p q e).path = x) := by
          rw [moveEnt_at_p p q e hep]
          exact fun hh => hx_q hh.symm
        have h2 : ¬ (e.path = x) := by
          rw [hep]
          exact fun hh => hx_p hh.symm
        simp [List.filter_cons, List.find?_cons, heq, h1, h2, hpx, ih']
      | false =>
        have hmv := moveEnt_untouched p q e hpre
        have hstep : List.filter (fun e => !(e.path = q : Bool)) (e :: es) =
            e :: List.filter (fun e => !(e.path = q : Bool)) es := by
          simp [List.filter_cons, heq]
        by_cases hx : e.path = x
        · rw [hstep, List.map_cons, hmv]
          simp [List.find?_cons, hx]
        · rw [hstep, List.map_cons, hmv]
          simp [List.find?_cons, hx, ih']

theorem renamed_find_p (es : List Entry) (p q : PyPath)
    (hdesc : ∀ e ∈ es, p.isPrefixOf e.path = true → e.path = p)
    (hpq : p ≠ q) :
    ((es.filter (fun e => !(e.path = q : Bool))).map (moveEnt p q)).find?
      (fun e => e.path = p) = none := by
  induction es with
  | nil => rfl
  | cons e es ih =>
    have hd := hdesc e (List.mem_cons_self e es)
    have ih' := ih (fun e' he' hp => hdesc e' (List.mem_cons_of_mem e he') hp)
    by_cases heq : e.path = q
    · simp [List.filter_cons, heq, ih']
    · cases hpre : p.isPrefixOf e.path with
      | true =>
        have hep : e.path = p := hd hpre
        have h1 : ¬ ((moveEnt p q e).path = p) := by
          rw [moveEnt_at_p p q e hep]
          exact fun hh => hpq hh.symm
        simp [List.filter_cons, List.find?_cons, heq, h1, ih']
      | false =>
        have h1 : ¬ ((moveEnt p q e).path = p) := by
          rw [moveEnt_untouched p q e hpre]
          exact path_ne_p_of_not_pref p e hpre
        simp [List.filter_cons, List.find?_cons, heq, h1, ih']

theorem renamed_find_q (es : List Entry) (p q : PyPath)
    (hdesc : ∀ e ∈ es, p.isPrefixOf e.path = true → e.path = p)
    (hpq : p ≠ q) :
    ((es.filter (fun e => !(e.path = q : Bool))).map (moveEnt p q)).find?
      (fun e => e.path = q) =
      (es.find? (fun e => e.path = p)).map (fun e => { e with path := q }) := by
  induction es with
  | nil => rfl
  | cons e es ih =>
    have hd := hdesc e (List.mem_cons_self e es)
    have ih' := ih (fun e' he' hp => hdesc e' (List.mem_cons_of_mem e he') hp)
    have hqp : ¬ (q = p) := fun hh => hpq hh.symm
    by_cases heq : e.path = q
    · have hnp : ¬ (e.path = p) := by
        rw [heq]
        exact fun hh => hpq hh.symm
      simp [List.filter_cons, List.find?_cons, heq, hnp, hqp, ih']
    · have hstep : List.filter (fun e => !(e.path = q : Bool)) (e :: es) =
          e :: List.filter (fun e => !(e.path = q : Bool)) es := by
        simp [List.filter_cons, heq]
      cases hpre : p.isPrefixOf e.path with
      | true =>
        have hep : e.path = p := hd hpre
        rw [hstep, List.map_cons, moveEnt_at_p p q e hep]
        simp [List.find?_cons, hep]
      | false =>
        have hmv := moveEnt_untouched p q e hpre
        have h2 : ¬ (e.path = p) := path_ne_p_of_not_pref p e hpre
        rw [hstep, List.map_cons, hmv]
        simp [List.find?_cons, heq, h2, ih']

theorem mem_pathPrefixes_length (P q : PyPath) (h : q ∈ pathPrefixes P) :
    q.length ≤ P.length ∧ ∃ k, q = P.take (k + 1) := by
  unfold pathPrefixes at h
  rcases List.mem_map.mp h with ⟨k, hk, rfl⟩
  refine ⟨?_, k, rfl⟩
  rw [List.length_take]
  exact Nat.min_le_right _ _

theorem mem_pathPrefixes_of_pref (P q mp : PyPath)
    (hq : q ∈ pathPrefixes P) (hmp : mp.isPrefixOf q = true) (hne : mp ≠ []) :
    mp ∈ pathPrefixes P := by
  rcases mem_pathPrefixes_length P q hq with ⟨hlen, k, rfl⟩
  have hpre : mp <+: P.take (k + 1) := List.isPrefixOf_iff_prefix.mp hmp
  have htake : mp = (P.take (k + 1)).take mp.length :=
    List.prefix_iff_eq_take.mp hpre
  have hk1 : mp.length ≤ k + 1 := by
    refine le_trans hpre.length_le ?_
    rw [List.length_take]
    exact Nat.min_le_left _ _
  have hmpP : mp = P.take mp.length := by
    conv_lhs => rw [htake]
    rw [List.take_take, Nat.min_eq_left hk1]
  have hlen2 : mp.length ≤ P.length := by
    refine le_trans hpre.length_le ?_
    rw [List.length_take]
    exact Nat.min_le_right _ _
  have hpos : 1 ≤ mp.length := by
    cases mp with
    | nil => exact absurd rfl hne
    | cons a l => simp
  unfold pathPrefixes
  apply List.mem_map.mpr
  refine ⟨mp.length - 1, ?_, ?_⟩
  · apply List.mem_range.mpr
    omega
  · rw [show mp.length - 1 + 1 = mp.length from by omega]
    exact hmpP.symm

/-- C6: for a metadata file below the source root, `move_metadata_file`
computes its path relative to the source root, creates any missing
intermediate directories under the destination root, renames (moves, does not
copy) the file to the destination root joined with that relative path, and
returns the new path: the moved file keeps its content and mtime at the new
path, no longer exists at the old path, and every intermediate directory of
the new path exists afterwards. -/
theorem claim_C6_relocate (fs : FS) (mp src dest : PyPath) (e : Entry)
    (hmp_ne : mp ≠ [])
    (hpre : src.isPrefixOf mp = true)
    (hfe : fs.lookup mp = some e)
    (hfd : e.isDir = false)
    (hdesc : ∀ e' ∈ fs.entries, mp.isPrefixOf e'.path = true → e'.path = mp)
    (hmk : (pyMakedirs fs (pathParent (dest ++ mp.drop src.length))).2 = true)
    (hqd : isDirP fs.shape (dest ++ mp.drop src.length) = false)
    (hne : mp ≠ dest ++ mp.drop src.length)
    (hnp_ne : dest ++ mp.drop src.length ≠ []) :
    ∃ fs2,
      move_metadata_file fs mp src dest =
        (fs2, .ok (dest ++ mp.drop src.length)) ∧
      fileAt fs2 (dest ++ mp.drop src.length) = fileAt fs mp ∧
      fs2.lookup mp = none ∧
      (∀ k ∈ pathPrefixes (pathParent (dest ++ mp.drop src.length)),
        isDirP fs2.shape k = true) := by
  have hfa : fileAt fs mp = some (e.content, e.mtime) := by
    unfold fileAt
    simp only [hfe, hfd, Bool.false_eq_true, if_false]
  have hnotmem : mp ∉ pathPrefixes (pathParent (dest ++ mp.drop src.length)) := by
    intro hmem
    have h0 := mkdirList_success_fileAt_none
      (pathPrefixes (pathParent (dest ++ mp.drop src.length))) fs hmk mp hmem
    rw [hfa] at h0
    cases h0
  have l1 : ((pyMakedirs fs (pathParent (dest ++ mp.drop src.length))).1).lookup mp =
      some e := by
    have h := mkdirList_lookup_notmem
      (pathPrefixes (pathParent (dest ++ mp.drop src.length))) fs mp hnotmem
    rw [hfe] at h
    exact h
  have hex1 : existsP ((pyMakedirs fs (pathParent (dest ++ mp.drop src.length))).1).shape
      mp = true := by
    rw [existsP_shape, l1]
    rfl
  have hnpnotmem : dest ++ mp.drop src.length ∉
      pathPrefixes (pathParent (dest ++ mp.drop src.length)) := by
    intro hmem
    rcases mem_pathPrefixes_length _ _ hmem with ⟨hlen, _⟩
    rw [pathParent, List.length_dropLast] at hlen
    have hpos : 1 ≤ (dest ++ mp.drop src.length).length := by
      cases hv : dest ++ mp.drop src.length with
      | nil => exact absurd hv hnp_ne
      | cons a l => simp
    omega
  have l2 : ((pyMakedirs fs (pathParent (dest ++ mp.drop src.length))).1).lookup
      (dest ++ mp.drop src.length) = fs.lookup (dest ++ mp.drop src.length) :=
    mkdirList_lookup_notmem _ fs _ hnpnotmem
  have hqd1 : isDirP ((pyMakedirs fs (pathParent (dest ++ mp.drop src.length))).1).shape
      (dest ++ mp.drop src.length) = false := by
    rw [isDirP_shape, l2, ← isDirP_shape]
    exact hqd
  have hdesc1 : ∀ e' ∈ ((pyMakedirs fs (pathParent
      (dest ++ mp.drop src.length))).1).entries,
      mp.isPrefixOf e'.path = true → e'.path = mp := by
    intro e' he' hp
    rcases mkdirList_mem _ fs e' he' with h | ⟨h1, _⟩
    · exact hdesc e' h hp
    · exact absurd (mem_pathPrefixes_of_pref _ e'.path mp h1 hp hmp_ne) hnotmem
  have hrn := rename_ok ((pyMakedirs fs (pathParent (dest ++ mp.drop src.length))).1)
    mp (dest ++ mp.drop src.length) hex1 hqd1
  refine ⟨⟨((((pyMakedirs fs (pathParent (dest ++ mp.drop src.length))).1).entries.filter
    (fun e => !(e.path = dest ++ mp.drop src.length : Bool))).map
    (moveEnt mp (dest ++ mp.drop src.length)))⟩, ?_, ?_, ?_, ?_⟩
  · unfold move_metadata_file
    rw [hpre]
    simp only [Bool.not_true, Bool.false_eq_true, if_false]
    rw [show (pyMakedirs fs (pathParent (dest ++ mp.drop src.length))).2 = true
      from hmk]
    simp only [Bool.not_true, Bool.false_eq_true, if_false]
    rw [hrn]
  · show fileAt ⟨_⟩ _ = _
    unfold fileAt
    rw [show FS.lookup
      ⟨((((pyMakedirs fs (pathParent (dest ++ mp.drop src.length))).1).entries.filter
        (fun e => !(e.path = dest ++ mp.drop src.length : Bool))).map
        (moveEnt mp (dest ++ mp.drop src.length)))⟩ (dest ++ mp.drop src.length) =
      ((((pyMakedirs fs (pathParent (dest ++ mp.drop src.length))).1).entries.filter
        (fun e => !(e.path = dest ++ mp.drop src.length : Bool))).map
        (moveEnt mp (dest ++ mp.drop src.length))).find?
        (fun e => e.path = dest ++ mp.drop src.length) from rfl]
    rw [renamed_find_q _ mp (dest ++ mp.drop src.length) hdesc1 hne]
    rw [show (((pyMakedirs fs (pathParent (dest ++ mp.drop src.length))).1).entries.find?
      (fun e => e.path = mp)) = ((pyMakedirs fs (pathParent
        (dest ++ mp.drop src.length))).1).lookup mp from rfl]
    rw [l1]
    simp [hfe, hfd]
  · show FS.lookup ⟨_⟩ _ = _
    rw [show FS.lookup
      ⟨((((pyMakedirs fs (pathParent (dest ++ mp.drop src.length))).1).entries.filter
        (fun e => !(e.path = dest ++ mp.drop src.length : Bool))).map
        (moveEnt mp (dest ++ mp.drop src.length)))⟩ mp =
      ((((pyMakedirs fs (pathParent (dest ++ mp.drop src.length))).1).entries.filter
        (fun e => !(e.path = dest ++ mp.drop src.length : Bool))).map
        (moveEnt mp (dest ++ mp.drop src.length))).find?
        (fun e => e.path = mp) from rfl]
    exact renamed_find_p _ mp (dest ++ mp.drop src.length) hdesc1 hne
  · intro k hk
    have hk_mp : k ≠ mp := fun hh => hnotmem (hh ▸ hk)
    have hk_np : k ≠ dest ++ mp.drop src.length := fun hh => hnpnotmem (hh ▸ hk)
    rw [isDirP_shape]
    rw [show FS.lookup
      ⟨((((pyMakedirs fs (pathParent (dest ++ mp.drop src.length))).1).entries.filter
        (fun e => !(e.path = dest ++ mp.drop src.length : Bool))).map
        (moveEnt mp (dest ++ mp.drop src.length)))⟩ k =
      ((((pyMakedirs fs (pathParent (dest ++ mp.drop src.length))).1).entries.filter
        (fun e => !(e.path = dest ++ mp.drop src.length : Bool))).map
        (moveEnt mp (dest ++ mp.drop src.length))).find?
        (fun e => e.path = k) from rfl]
    rw [renamed_find_other _ mp (dest ++ mp.drop src.length) k hdesc1 hk_mp hk_np]
    rw [show (((pyMakedirs fs (pathParent (dest ++ mp.drop src.length))).1).entries.find?
      (fun e => e.path = k)) = ((pyMakedirs fs (pathParent
        (dest ++ mp.drop src.length))).1).lookup k from rfl]
    rw [← isDirP_shape]
    exact mkdirList_success_isDir _ fs hmk k hk

/-- Concrete tree for the C6 witness, mirroring the claim's example:
`source/AlbumX/photo.json` with destination root `dest`. -/
def fsC6 : FS :=
  ⟨[⟨["source"], true, "", 0⟩,
    ⟨["source", "AlbumX"], true, "", 0⟩,
    ⟨["source", "AlbumX", "photo.json"], false, "meta", 9⟩,
    ⟨["dest"], true, "", 0⟩]⟩

/-- Witness for C6: the sidecar ends at `dest/AlbumX/photo.json` with its
content and mtime, is gone from the source, and `dest/AlbumX` was created. -/
theorem claim_C6_relocate_witness :
    (move_metadata_file fsC6 ["source", "AlbumX", "photo.json"] ["source"]
      ["dest"]).2 = .ok ["dest", "AlbumX", "photo.json"] ∧
    fileAt (move_metadata_file fsC6 ["source", "AlbumX", "photo.json"] ["source"]
      ["dest"]).1 ["dest", "AlbumX", "photo.json"] = some ("meta", 9) ∧
    (move_metadata_file fsC6 ["source", "AlbumX", "photo.json"] ["source"]
      ["dest"]).1.lookup ["source", "AlbumX", "photo.json"] = none ∧
    isDirP (move_metadata_file fsC6 ["source", "AlbumX", "photo.json"] ["source"]
      ["dest"]).1.shape ["dest", "AlbumX"] = true := by
  obtain ⟨fs2, h1, h2, h3, h4⟩ := claim_C6_relocate fsC6
    ["source", "AlbumX", "photo.json"] ["source"] ["dest"]
    ⟨["source", "AlbumX", "photo.json"], false, "meta", 9⟩
    (by decide) (by decide) rfl rfl (by decide) (by decide) (by decide)
    (by decide) (by decide)
  rw [h1]
  exact ⟨rfl, h2.trans rfl, h3,
    h4 ["dest", "AlbumX"] (by decide)⟩

/-- C9: if `move_unmatched` is enabled but no metadata destination directory
is given, `main` hard-fails at the startup assertion, before `fix_metadata`
(the traversal) is ever entered, and no regular file has been created,
removed or modified — only the `mkdir` of the source directory may have added
directories. -/
theorem claim_C9_startup_guard (lib : PyLib) (fs : FS) (src : PyPath) :
    main_run lib fs src none true = .startupFailure (pyMakedirs fs src).1 ∧
    (∀ p, fileAt ((pyMakedirs fs src).1) p = fileAt fs p) := by
  constructor
  · unfold main_run
    by_cases h1 : (pyMakedirs fs src).2 = true
    · simp only [h1, Bool.not_true, Bool.false_eq_true, if_false]
      by_cases h2 : isDirP ((pyMakedirs fs src).1).shape src = true
      · simp [h2]
      · have h2' : isDirP ((pyMakedirs fs src).1).shape src = false := by
          cases hh : isDirP ((pyMakedirs fs src).1).shape src
          · rfl
          · exact absurd hh h2
        simp [h2']
    · have h1' : (pyMakedirs fs src).2 = false := by
        cases hh : (pyMakedirs fs src).2
        · rfl
        · exact absurd hh h1
      simp [h1']
  · intro p
    exact mkdirList_fileAt (pathPrefixes src) fs p

/-! ### C7: relocation policy -/

theorem not_endsWith_html_of_json (n : String)
    (h : strEndsWith n ".json" = true) : strEndsWith n ".html" = false := by
  cases hh : strEndsWith n ".html" with
  | false => rfl
  | true =>
    exfalso
    unfold strEndsWith at h hh
    have h1 : ".json".data <:+ n.data := by
      rw [← List.isSuffixOf_iff_suffix]
      exact h
    have h2 : ".html".data <:+ n.data := by
      rw [← List.isSuffixOf_iff_suffix]
      exact hh
    obtain ⟨t1, ht1⟩ := h1
    obtain ⟨t2, ht2⟩ := h2
    have hlen : t1.length = t2.length := by
      have e1 := congrArg List.length ht1
      have e2 := congrArg List.length ht2
      simp at e1 e2
      omega
    have := (List.append_inj (ht1.trans ht2.symm) hlen).2
    simp at this

theorem json_create_body_meta (lib : PyLib) (sh : Shape) (mp : PyPath)
    (allow : Bool) (r : JsonRec)
    (h : JsonParser.create_body lib sh mp allow = .ok (some r)) :
    r.metadata_path = mp := by
  unfold JsonParser.create_body at h
  cases hr : readText sh mp with
  | error m => simp [hr] at h
  | ok txt =>
    simp only [hr] at h
    cases hl : lib.loads txt with
    | error m => simp [hl] at h
    | ok data =>
      simp only [hl] at h
      by_cases hn : data.isNull = true
      · rw [if_pos hn] at h
        simp at h
      · rw [if_neg hn] at h
        cases ht : getSanitizedTitle data with
        | error m => simp [ht] at h
        | ok topt =>
          cases topt with
          | none => simp [ht] at h
          | some title =>
            simp only [ht] at h
            split_ifs at h with h1 h2 h3
            · injection h with h5
              injection h5 with h6
              rw [← h6]
            · injection h with h5
              injection h5 with h6
              rw [← h6]
            · injection h with h5
              injection h5 with h6
              rw [← h6]
            · simp at h

theorem json_create_meta (lib : PyLib) (sh : Shape) (mp : PyPath) (allow : Bool)
    (r : JsonRec) (h : JsonParser.create lib sh mp allow = some r) :
    r.metadata_path = mp := by
  cases hb : JsonParser.create_body lib sh mp allow with
  | error m =>
    simp only [JsonParser.create, hb] at h
    cases h
  | ok v =>
    simp only [JsonParser.create, hb] at h
    subst h
    exact json_create_body_meta lib sh mp allow r hb

theorem html_create_body_meta (lib : PyLib) (sh : Shape) (mp : PyPath)
    (allow : Bool) (r : HtmlRec)
    (h : CommentsHtmlParser.create_body lib sh mp allow = .ok (some r)) :
    r.metadata_path = mp := by
  unfold CommentsHtmlParser.create_body at h
  cases hr : readText sh mp with
  | error m => simp [hr] at h
  | ok txt =>
    simp only [hr] at h
    cases hl : lib.htmlTitle txt with
    | error m => simp [hl] at h
    | ok topt =>
      cases topt with
      | none => simp [hl] at h
      | some title =>
        simp only [hl] at h
        split_ifs at h with h1 h2
        · injection h with h5
          injection h5 with h6
          rw [← h6]
        · injection h with h5
          injection h5 with h6
          rw [← h6]
        · simp at h

theorem html_create_meta (lib : PyLib) (sh : Shape) (mp : PyPath) (allow : Bool)
    (r : HtmlRec) (h : CommentsHtmlParser.create lib sh mp allow = some r) :
    r.metadata_path = mp := by
  cases hb : CommentsHtmlParser.create_body lib sh mp allow with
  | error m =>
    simp only [CommentsHtmlParser.create, hb] at h
    cases h
  | ok v =>
    simp only [CommentsHtmlParser.create, hb] at h
    subst h
    exact html_create_body_meta lib sh mp allow r hb

theorem applyRec_shape (lib : PyLib) (fs : FS) (r : PRec) :
    ((applyRec lib fs r).1).shape = fs.shape := by
  rw [applyRec_fst]
  exact shape_applyOps fs _

/-- C7 counterexample: with the move-unmatched policy enabled and a
destination configured, a sidecar for which no match occurred (its payload
yields no usable title, so `create` returns no record) is *not* relocated —
the whole run leaves the tree untouched, the sidecar still at its source path
and nothing at the mirrored destination path. -/
theorem claim_C7_counterexample :
    fix_metadata sampleLib fsC7 ["s"] (some ["t"]) true = (fsC7, []) ∧
    (fsC7.lookup ["s", "d", "a.json"]).isSome = true ∧
    fsC7.lookup ["t", "d", "a.json"] = none := by
  refine ⟨by decide, by decide, by decide⟩

/-- C7 (amended): when the move-unmatched policy is enabled and a destination
root is configured, every sidecar that yields a matched record — including one
whose title matches no existing file, admitted by the policy — is passed to
the relocator regardless of whether apply succeeded; a sidecar for which
`create` yields no record never appears among the records of its directory
and is therefore never relocated.  Without the policy, the relocator runs only
when apply succeeded and a destination was configured; with no destination
and no policy the record step performs no relocation at all. -/
theorem claim_C7_relocation_policy (lib : PyLib) (sh : Shape) (dir : PyPath)
    (move : Bool) (n : String) (src d : PyPath) (fs : FS) (r : PRec) :
    (strEndsWith n ".json" = true →
      JsonParser.create lib sh (dir ++ [n]) move = none →
      ∀ r' ∈ collectParsers lib sh dir move, r'.metadata_path ≠ dir ++ [n]) ∧
    ((applyRec lib fs r).2 = false → move = false →
      processRecord lib src (some d) move fs r = ((applyRec lib fs r).1, []) ∧
      ((applyRec lib fs r).1).shape = fs.shape) ∧
    (((applyRec lib fs r).2 = true ∨ move = true) →
      processRecord lib src (some d) move fs r =
        (match move_metadata_file (applyRec lib fs r).1 r.metadata_path src d with
         | (fs2, .ok _) => (fs2, [])
         | (fs2, .error m) => (fs2, [m]))) ∧
    processRecord lib src none false fs r = ((applyRec lib fs r).1, []) := by
  refine ⟨?_, ?_, ?_, processRecord_noDest lib src fs r⟩
  · intro hjson hnone r' hr' heq
    unfold collectParsers at hr'
    rcases List.mem_flatten.mp hr' with ⟨l, hl, hrl⟩
    rcases List.mem_map.mp hl with ⟨m, hm, rfl⟩
    have hmn : m = n := by
      have h2 := heq
      have hlist : dir ++ [m] = dir ++ [n] := by
        rcases List.mem_append.mp hrl with hj | hh
        · by_cases hsj : strEndsWith m ".json" = true
          · rw [if_pos hsj] at hj
            cases hc : JsonParser.create lib sh (dir ++ [m]) move with
            | none => rw [hc] at hj; cases hj
            | some rj =>
              rw [hc] at hj
              rcases List.mem_singleton.mp hj with rfl
              rw [← json_create_meta lib sh (dir ++ [m]) move rj hc]
              exact h2
          · have hsj' : strEndsWith m ".json" = false := by
              cases hv : strEndsWith m ".json"
              · rfl
              · exact absurd hv hsj
            rw [hsj'] at hj
            simp at hj
        · by_cases hsh : strEndsWith m ".html" = true
          · rw [if_pos hsh] at hh
            cases hc : CommentsHtmlParser.create lib sh (dir ++ [m]) move with
            | none => rw [hc] at hh; cases hh
            | some rh =>
              rw [hc] at hh
              rcases List.mem_singleton.mp hh with rfl
              rw [← html_create_meta lib sh (dir ++ [m]) move rh hc]
              exact h2
          · have hsh' : strEndsWith m ".html" = false := by
              cases hv : strEndsWith m ".html"
              · rfl
              · exact absurd hv hsh
            rw [hsh'] at hh
            simp at hh
      have := List.append_cancel_left hlist
      exact List.singleton_inj.mp this
    subst hmn
    rcases List.mem_append.mp hrl with hj | hh
    · rw [if_pos hjson, hnone] at hj
      cases hj
    · rw [not_endsWith_html_of_json m hjson] at hh
      simp at hh
  · intro h1 h2
    refine ⟨?_, applyRec_shape lib fs r⟩
    simp only [processRecord, h1, h2, Bool.false_and, Bool.or_false,
      Bool.false_eq_true, if_false]
  · intro h1
    rcases h1 with h1 | h1
    · simp only [processRecord, h1, Option.isSome_some, Bool.and_true,
        Bool.true_or, Bool.or_true, if_true]
    · simp only [processRecord, h1, Bool.or_true, if_true]

/-- Concrete record for the C7 witness: a sidecar admitted by the policy
whose payload has no timestamp field, so apply fails, yet the record is still
passed to the relocator. -/
def recC7 : PRec :=
  .json ⟨["s", "d", "u.json"], ["s", "d", "nope.jpg"], .obj [("title", .str "nope.jpg")]⟩

def fsC7b : FS :=
  ⟨[⟨["s"], true, "", 0⟩,
    ⟨["s", "d"], true, "", 0⟩,
    ⟨["s", "d", "u.json"], false, "titled", 7⟩,
    ⟨["t"], true, "", 0⟩]⟩

/-- Witness for the amended C7: with the policy on and a destination set, the
apply-failed record is handed to `move_metadata_file` (and the file indeed
ends up under the destination). -/
theorem claim_C7_relocation_policy_witness :
    processRecord sampleLib ["s"] (some ["t"]) true fsC7b recC7 =
      (match move_metadata_file (applyRec sampleLib fsC7b recC7).1
          recC7.metadata_path ["s"] ["t"] with
       | (fs2, .ok _) => (fs2, [])
       | (fs2, .error m) => (fs2, [m])) ∧
    (fileAt (processRecord sampleLib ["s"] (some ["t"]) true fsC7b recC7).1
      ["t", "d", "u.json"]).isSome = true :=
  ⟨(claim_C7_relocation_policy sampleLib fsC7b.shape ["s", "d"] true "u.json"
      ["s"] ["t"] fsC7b recC7).2.2.1 (Or.inr rfl),
   by decide⟩
